import Mathlib

/-!
Verification of the `nebari-mlflow-plugin` webhook listener
(`webhook-listener/src/*.py`) against its natural-language specification.

The Python sources are shallowly embedded: bytes are `Nat` values below 256,
32-bit machine words are `Nat` with explicit reduction `% 2 ^ 32`, Python
strings are Lean `String`/`List Char`, fallible Python code returns
`Except`/`Option`, and the external collaborators (MLflow registry,
Kubernetes API server) are explicit environments of response functions.
-/

set_option maxRecDepth 4000

/-! ## Bytes and 32-bit words -/

/-- Reduce a natural number to a 32-bit word (all SHA-256 arithmetic is mod `2^32`). -/
def w32 (n : Nat) : Nat := n % 4294967296

/-- Right rotation of a 32-bit word by `n` bits. -/
def rotr32 (n x : Nat) : Nat := w32 ((x >>> n) ||| (x <<< (32 - n)))

/-! ## SHA-256 (FIPS 180-4), used by `hmac.new(..., hashlib.sha256)` in
`webhook_handler.verify_mlflow_signature` (webhook_handler.py:72-75). -/

/-- SHA-256 choice function `Ch(x,y,z)`; `¬x` in 32 bits is `x ^^^ 0xFFFFFFFF`. -/
def shaCh (x y z : Nat) : Nat := (x &&& y) ^^^ ((x ^^^ 0xFFFFFFFF) &&& z)

/-- SHA-256 majority function `Maj(x,y,z)`. -/
def shaMaj (x y z : Nat) : Nat := (x &&& y) ^^^ (x &&& z) ^^^ (y &&& z)

/-- SHA-256 big sigma-0. -/
def bSig0 (x : Nat) : Nat := rotr32 2 x ^^^ rotr32 13 x ^^^ rotr32 22 x

/-- SHA-256 big sigma-1. -/
def bSig1 (x : Nat) : Nat := rotr32 6 x ^^^ rotr32 11 x ^^^ rotr32 25 x

/-- SHA-256 small sigma-0. -/
def sSig0 (x : Nat) : Nat := rotr32 7 x ^^^ rotr32 18 x ^^^ (x >>> 3)

/-- SHA-256 small sigma-1. -/
def sSig1 (x : Nat) : Nat := rotr32 17 x ^^^ rotr32 19 x ^^^ (x >>> 10)

/-- The 64 SHA-256 round constants (FIPS 180-4, written in decimal). -/
def shaK : List Nat :=
  [1116352408, 1899447441, 3049323471, 3921009573, 961987163, 1508970993,
   2453635748, 2870763221, 3624381080, 310598401, 607225278, 1426881987,
   1925078388, 2162078206, 2614888103, 3248222580, 3835390401, 4022224774,
   264347078, 604807628, 770255983, 1249150122, 1555081692, 1996064986,
   2554220882, 2821834349, 2952996808, 3210313671, 3336571891, 3584528711,
   113926993, 338241895, 666307205, 773529912, 1294757372, 1396182291,
   1695183700, 1986661051, 2177026350, 2456956037, 2730485921, 2820302411,
   3259730800, 3345764771, 3516065817, 3600352804, 4094571909, 275423344,
   430227734, 506948616, 659060556, 883997877, 958139571, 1322822218,
   1537002063, 1747873779, 1955562222, 2024104815, 2227730452, 2361852424,
   2428436474, 2756734187, 3204031479, 3329325298]

/-- SHA-256 working state: eight 32-bit words. -/
structure Sha256State where
  a : Nat
  b : Nat
  c : Nat
  d : Nat
  e : Nat
  f : Nat
  g : Nat
  h : Nat
deriving DecidableEq

/-- The SHA-256 initial hash value (FIPS 180-4, written in decimal). -/
def shaInit : Sha256State :=
  ⟨1779033703, 3144134277, 1013904242, 2773480762, 1359893119, 2600822924, 528734635, 1541459225⟩

/-- Group a byte list into big-endian 32-bit words (incomplete trailing group dropped;
inputs are always a multiple of 4 bytes). -/
def bytesToWords : List Nat → List Nat
  | a :: b :: c :: d :: rest => ((a <<< 24) ||| (b <<< 16) ||| (c <<< 8) ||| d) :: bytesToWords rest
  | _ => []

/-- Extend a 16-word message block to the full 64-entry SHA-256 message schedule,
appending `fuel` entries. -/
def buildW : Nat → List Nat → List Nat
  | 0, w => w
  | n + 1, w =>
    let i := w.length
    let next := w32 (sSig1 (w.getD (i - 2) 0) + w.getD (i - 7) 0 +
                     sSig0 (w.getD (i - 15) 0) + w.getD (i - 16) 0)
    buildW n (w ++ [next])

/-- One SHA-256 compression round with round constant `k` and schedule word `w`. -/
def compressStep (st : Sha256State) (k w : Nat) : Sha256State :=
  let t1 := w32 (st.h + bSig1 st.e + shaCh st.e st.f st.g + k + w)
  let t2 := w32 (bSig0 st.a + shaMaj st.a st.b st.c)
  ⟨w32 (t1 + t2), st.a, st.b, st.c, w32 (st.d + t1), st.e, st.f, st.g⟩

/-- Compress one 64-byte block into the running hash state. -/
def compressBlock (h0 : Sha256State) (block : List Nat) : Sha256State :=
  let w := buildW 48 (bytesToWords block)
  let st := (List.zip shaK w).foldl (fun st kw => compressStep st kw.1 kw.2) h0
  ⟨w32 (h0.a + st.a), w32 (h0.b + st.b), w32 (h0.c + st.c), w32 (h0.d + st.d),
   w32 (h0.e + st.e), w32 (h0.f + st.f), w32 (h0.g + st.g), w32 (h0.h + st.h)⟩

/-- Split a byte list into 64-byte chunks. -/
def chunks64 : List Nat → List (List Nat)
  | [] => []
  | a :: rest => ((a :: rest).take 64) :: chunks64 (rest.drop 63)
termination_by l => l.length
decreasing_by simp only [List.length_drop, List.length_cons]; omega

/-- A natural number as 8 big-endian bytes (the SHA-256 length field). -/
def be64 (n : Nat) : List Nat :=
  [(n >>> 56) % 256, (n >>> 48) % 256, (n >>> 40) % 256, (n >>> 32) % 256,
   (n >>> 24) % 256, (n >>> 16) % 256, (n >>> 8) % 256, n % 256]

/-- A 32-bit word as 4 big-endian bytes. -/
def be32 (n : Nat) : List Nat :=
  [(n >>> 24) % 256, (n >>> 16) % 256, (n >>> 8) % 256, n % 256]

/-- SHA-256 padding: append `0x80`, zeros to 56 mod 64, then the bit length. -/
def shaPad (msg : List Nat) : List Nat :=
  let len := msg.length
  let zeros := (120 - ((len + 1) % 64)) % 64
  msg ++ 0x80 :: (List.replicate zeros 0 ++ be64 (8 * len))

/-- SHA-256 of a byte list, as a 32-byte list. -/
def sha256 (msg : List Nat) : List Nat :=
  let st := (chunks64 (shaPad msg)).foldl compressBlock shaInit
  be32 st.a ++ be32 st.b ++ be32 st.c ++ be32 st.d ++
  be32 st.e ++ be32 st.f ++ be32 st.g ++ be32 st.h

/-! ## HMAC-SHA256 (RFC 2104), i.e. Python `hmac.new(key, msg, hashlib.sha256).digest()`. -/

/-- HMAC-SHA256 of `msg` under `key` (both byte lists), as a 32-byte list. -/
def hmacSha256 (key msg : List Nat) : List Nat :=
  let k0 := if 64 < key.length then sha256 key else key
  let kb := k0 ++ List.replicate (64 - k0.length) 0
  let ipad := kb.map (fun b => b ^^^ 0x36)
  let opad := kb.map (fun b => b ^^^ 0x5C)
  sha256 (opad ++ sha256 (ipad ++ msg))

/-! ## Base64 (RFC 4648), i.e. Python `base64.b64encode(...).decode("utf-8")`. -/

/-- The base64 alphabet. -/
def b64Alphabet : List Char :=
  "ABCDEFGHIJKLMNOPQRSTUVWXYZabcdefghijklmnopqrstuvwxyz0123456789+/".data

/-- The base64 character for a 6-bit value. -/
def b64Char (n : Nat) : Char := b64Alphabet.getD n 'A'

/-- Base64-encode a byte list into characters, with `=` padding. -/
def base64EncodeCore : List Nat → List Char
  | [] => []
  | [a] => [b64Char (a >>> 2), b64Char ((a &&& 3) <<< 4), '=', '=']
  | [a, b] => [b64Char (a >>> 2), b64Char (((a &&& 3) <<< 4) ||| (b >>> 4)),
               b64Char ((b &&& 15) <<< 2), '=']
  | a :: b :: c :: rest =>
      b64Char (a >>> 2) :: b64Char (((a &&& 3) <<< 4) ||| (b >>> 4)) ::
      b64Char (((b &&& 15) <<< 2) ||| (c >>> 6)) :: b64Char (c &&& 63) ::
      base64EncodeCore rest

/-- Base64-encode a byte list into a string. -/
def base64Encode (l : List Nat) : String := ⟨base64EncodeCore l⟩

/-! ## UTF-8 encoding, i.e. Python `str.encode("utf-8")`. -/

/-- UTF-8 encoding of one Unicode scalar value. -/
def utf8EncodeCharNat (n : Nat) : List Nat :=
  if n < 0x80 then [n]
  else if n < 0x800 then
    [0xC0 ||| (n >>> 6), 0x80 ||| (n &&& 0x3F)]
  else if n < 0x10000 then
    [0xE0 ||| (n >>> 12), 0x80 ||| ((n >>> 6) &&& 0x3F), 0x80 ||| (n &&& 0x3F)]
  else
    [0xF0 ||| (n >>> 18), 0x80 ||| ((n >>> 12) &&& 0x3F),
     0x80 ||| ((n >>> 6) &&& 0x3F), 0x80 ||| (n &&& 0x3F)]

/-- UTF-8 encoding of a string as a byte list. -/
def utf8Encode (s : String) : List Nat :=
  (s.data.map (fun c => utf8EncodeCharNat c.toNat)).flatten

/-! ## `verify_mlflow_signature` (webhook_handler.py:32-103)

The source checks the `"v1,"` header format, strips that three-character
marker (`str.removeprefix`), recomputes HMAC-SHA256 over
`f"{delivery_id}.{timestamp}.{payload}"`, base64-encodes it, and compares
with `hmac.compare_digest` (equality of the two ASCII strings, in constant
time; timing is outside this embedding). The enclosing `try` returns
`False` on any exception; no reachable branch of the embedded computation
raises, so the embedding is a total function. -/

/-- Embedding of `verify_mlflow_signature(payload, signature, secret, delivery_id, timestamp)`. -/
def verify_mlflow_signature (payload signature secret delivery_id timestamp : String) : Bool :=
  if signature.data.take 3 = "v1,".data then
    let signature_b64 := signature.data.drop 3
    let signed_content := delivery_id ++ "." ++ timestamp ++ "." ++ payload
    let expected_signature := hmacSha256 (utf8Encode secret) (utf8Encode signed_content)
    let expected_signature_b64 := base64Encode expected_signature
    decide (signature_b64 = expected_signature_b64.data)
  else
    false

/-- C1: `verify_mlflow_signature(payload, signature, secret, delivery_id, timestamp)`
returns true exactly when `signature` is the literal marker `"v1,"` followed by the
base64 encoding of HMAC-SHA256 keyed by the UTF-8 bytes of `secret` over the UTF-8
bytes of the canonical string `delivery_id ++ "." ++ timestamp ++ "." ++ payload`.
In particular a signature produced by that signing rule verifies, a signature not
starting with `"v1,"` is rejected, and any change to `payload`, `delivery_id`,
`timestamp` or `secret` that changes the canonical HMAC digest makes it return false. -/
theorem verify_mlflow_signature_correct
    (payload signature secret delivery_id timestamp : String) :
    verify_mlflow_signature payload signature secret delivery_id timestamp = true ↔
      signature = "v1," ++ base64Encode (hmacSha256 (utf8Encode secret)
        (utf8Encode (delivery_id ++ "." ++ timestamp ++ "." ++ payload))) := by
  unfold verify_mlflow_signature
  by_cases h : signature.data.take 3 = "v1,".data
  · rw [if_pos h]
    simp only [decide_eq_true_eq]
    constructor
    · intro hd
      apply String.ext
      rw [String.data_append]
      rw [← h, ← hd, List.take_append_drop]
    · intro heq
      rw [heq, String.data_append]
      have h3 : "v1,".data.length = 3 := rfl
      rw [← h3, List.drop_left]
  · rw [if_neg h]
    constructor
    · intro hcontra
      exact absurd hcontra Bool.false_ne_true
    intro heq
    exfalso
    apply h
    rw [heq, String.data_append]
    have h3 : "v1,".data.length = 3 := rfl
    rw [← h3, List.take_left]

/-! ## `verify_timestamp_freshness` (webhook_handler.py:106-162)

The source parses the header with Python `int(...)`, compares the age
`now - timestamp` against the window, and maps `ValueError`/`TypeError`
from parsing to `False`; `current_timestamp = int(time.time())` is passed
in here as the explicit parameter `now`. The embedding is a total
function, so it never raises to its caller. Python `int` parsing is
modelled for ASCII input: surrounding whitespace, an optional sign, and a
nonempty digit run with single underscores allowed between digits. -/

/-- ASCII whitespace stripped by Python `int(...)` parsing. -/
def isAsciiWs (c : Char) : Bool :=
  c == ' ' || c == '\t' || c == '\n' || c == '\r' || c == '\x0b' || c == '\x0c'

/-- Strip leading and trailing ASCII whitespace. -/
def pyStrip (l : List Char) : List Char :=
  ((l.dropWhile isAsciiWs).reverse.dropWhile isAsciiWs).reverse

/-- Numeric value of an ASCII digit. -/
def digitVal (c : Char) : Nat := c.toNat - 48

/-- Parse the remaining digits of an integer literal after the first digit,
allowing a single `_` between digits (Python numeric-literal grammar). -/
def parseDigitsRest : Nat → List Char → Option Nat
  | acc, [] => some acc
  | acc, '_' :: c :: rest =>
      if c.isDigit then parseDigitsRest (acc * 10 + digitVal c) rest else none
  | acc, c :: rest =>
      if c.isDigit then parseDigitsRest (acc * 10 + digitVal c) rest else none

/-- Parse a nonempty unsigned digit run (with internal underscores). -/
def parseDigits : List Char → Option Nat
  | [] => none
  | c :: rest => if c.isDigit then parseDigitsRest (digitVal c) rest else none

/-- Embedding of Python `int(s)` on a string: `some` the parsed integer, or
`none` where Python raises `ValueError`. -/
def pyParseInt (s : String) : Option Int :=
  match pyStrip s.data with
  | '+' :: rest => (parseDigits rest).map (fun n => (n : Int))
  | '-' :: rest => (parseDigits rest).map (fun n => -(n : Int))
  | rest => (parseDigits rest).map (fun n => (n : Int))

/-- Embedding of `verify_timestamp_freshness(timestamp_str, max_age)`;
`now` is the value of `int(time.time())` at the call. -/
def verify_timestamp_freshness (now : Int) (timestamp_str : String) (max_age : Int) : Bool :=
  match pyParseInt timestamp_str with
  | none => false
  | some webhook_timestamp =>
      let age := now - webhook_timestamp
      decide (0 ≤ age ∧ age ≤ max_age)

/-- C3: `verify_timestamp_freshness(timestamp_str, max_age)` returns true if and
only if `timestamp_str` parses as an integer `t` with `0 ≤ now - t ≤ max_age`:
ages of exactly `0` and exactly `max_age` pass, an age of `max_age + 1` fails, a
future timestamp (`now - t < 0`) fails, and non-integer input returns false; the
embedded function is total, so it never raises to its caller. -/
theorem verify_timestamp_freshness_correct (now max_age : Int) (timestamp_str : String) :
    verify_timestamp_freshness now timestamp_str max_age = true ↔
      ∃ t, pyParseInt timestamp_str = some t ∧ 0 ≤ now - t ∧ now - t ≤ max_age := by
  cases hp : pyParseInt timestamp_str with
  | none => simp [verify_timestamp_freshness, hp]
  | some t => simp [verify_timestamp_freshness, hp]

/-! ## `sanitize_k8s_name` (templates.py:19-61)

The source lowercases the name, replaces every character outside
`[a-z0-9-]` with `-`, strips leading/trailing hyphens, collapses runs of
hyphens, truncates to 253 characters re-stripping trailing hyphens, and
raises `ValueError` when the result is empty. `str.lower()` is modelled on
its ASCII behaviour (`Char.toLower`). The `ValueError` becomes
`Except.error`. -/

/-- A character of the class `[a-z0-9-]` (the characters `re.sub` keeps). -/
def validChar (c : Char) : Bool :=
  decide ((97 ≤ c.toNat ∧ c.toNat ≤ 122) ∨ (48 ≤ c.toNat ∧ c.toNat ≤ 57) ∨ c.toNat = 45)

/-- A character of the class `[a-z0-9]`. -/
def alnumChar (c : Char) : Bool :=
  decide ((97 ≤ c.toNat ∧ c.toNat ≤ 122) ∨ (48 ≤ c.toNat ∧ c.toNat ≤ 57))

/-- The hyphen test used by `strip("-")`, `rstrip("-")` and `re.sub(r"-+", "-", ...)`. -/
def isDash (c : Char) : Bool := c == '-'

/-- Python `str.rstrip` restricted to a character class: drop the longest
suffix of characters satisfying `p`. -/
def pyRStrip {α : Type} (p : α → Bool) : List α → List α
  | [] => []
  | c :: rest =>
    match pyRStrip p rest with
    | [] => if p c then [] else [c]
    | r => c :: r

/-- Python `str.strip("-")`: drop hyphens from both ends. -/
def stripDashes (l : List Char) : List Char := pyRStrip isDash (l.dropWhile isDash)

/-- Replace runs of consecutive hyphens by a single hyphen
(`re.sub(r"-+", "-", name)`). -/
def collapseDashes : List Char → List Char
  | [] => []
  | [c] => [c]
  | a :: b :: rest =>
    if isDash a && isDash b then collapseDashes (b :: rest)
    else a :: collapseDashes (b :: rest)

/-- The sanitising pipeline of `sanitize_k8s_name` before the final
emptiness check: lowercase, substitute invalid characters, strip, collapse,
truncate to 253 re-stripping trailing hyphens. -/
def sanitizeCore (l : List Char) : List Char :=
  let lowered := l.map Char.toLower
  let replaced := lowered.map (fun c => if validChar c then c else '-')
  let stripped := stripDashes replaced
  let collapsed := collapseDashes stripped
  if 253 < collapsed.length then pyRStrip isDash (collapsed.take 253) else collapsed

/-- Embedding of `sanitize_k8s_name(name)`; `Except.error` is the
`ValueError("Sanitized name cannot be empty")` raise. -/
def sanitize_k8s_name (s : String) : Except String String :=
  let r := sanitizeCore s.data
  if r.isEmpty then Except.error "Sanitized name cannot be empty" else Except.ok ⟨r⟩

/-- Matcher for the spec's words: the regular expression
`^[a-z0-9]([a-z0-9-]*[a-z0-9])?$`, i.e. a nonempty string over `[a-z0-9-]`
whose first and last characters are alphanumeric. -/
def specK8sNameRegex (l : List Char) : Bool :=
  (match l.head? with
   | some c => alnumChar c
   | none => false) &&
  l.all validChar &&
  (match l.getLast? with
   | some c => alnumChar c
   | none => false)

/-- The no-consecutive-hyphens relation that `collapseDashes` establishes. -/
def noDD (a b : Char) : Prop := ¬(a = '-' ∧ b = '-')

lemma isDash_iff {c : Char} : isDash c = true ↔ c = '-' := by
  simp [isDash]

lemma toLower_eq_self_of_validChar {c : Char} (h : validChar c = true) :
    Char.toLower c = c := by
  have hv := of_decide_eq_true h
  unfold Char.toLower
  rw [if_neg]
  omega

lemma head?_dropWhile_false {α : Type} (p : α → Bool) (l : List α) (c : α)
    (h : (l.dropWhile p).head? = some c) : p c = false := by
  induction l with
  | nil => simp [List.dropWhile] at h
  | cons a rest ih =>
    rw [List.dropWhile_cons] at h
    by_cases hp : p a = true
    · rw [if_pos hp] at h
      exact ih h
    · rw [if_neg hp] at h
      simp only [List.head?_cons, Option.some.injEq] at h
      subst h
      exact Bool.not_eq_true _ ▸ hp

lemma pyRStrip_front {α : Type} (p : α → Bool) (l : List α) :
    pyRStrip p l <+: l := by
  induction l with
  | nil => exact List.prefix_refl []
  | cons a rest ih =>
    unfold pyRStrip
    cases hr : pyRStrip p rest with
    | nil =>
      by_cases hp : p a = true
      · rw [if_pos hp]
        exact List.nil_prefix
      · rw [if_neg hp]
        exact ⟨rest, rfl⟩
    | cons b bs =>
      rw [hr] at ih
      obtain ⟨t, ht⟩ := ih
      exact ⟨t, by rw [List.cons_append, ht]⟩

lemma pyRStrip_getLast? {α : Type} (p : α → Bool) (l : List α) (c : α)
    (h : (pyRStrip p l).getLast? = some c) : p c = false := by
  induction l with
  | nil => simp [pyRStrip] at h
  | cons a rest ih =>
    unfold pyRStrip at h
    cases hr : pyRStrip p rest with
    | nil =>
      rw [hr] at h
      by_cases hp : p a = true
      · rw [if_pos hp] at h
        simp at h
      · rw [if_neg hp] at h
        simp only [List.getLast?_singleton, Option.some.injEq] at h
        subst h
        exact Bool.not_eq_true _ ▸ hp
    | cons b bs =>
      rw [hr, List.getLast?_cons_cons] at h
      exact ih (by rw [hr]; exact h)

lemma pyRStrip_eq_self {α : Type} (p : α → Bool) (l : List α)
    (h : ∀ c, l.getLast? = some c → p c = false) : pyRStrip p l = l := by
  induction l with
  | nil => rfl
  | cons a rest ih =>
    cases rest with
    | nil =>
      have := h a rfl
      unfold pyRStrip
      simp [pyRStrip, this]
    | cons b bs =>
      have hrec : pyRStrip p (b :: bs) = b :: bs :=
        ih (fun c hc => h c (by rw [List.getLast?_cons_cons]; exact hc))
      unfold pyRStrip
      rw [hrec]

lemma head?_of_front {α : Type} {l₁ l₂ : List α} {c : α}
    (h : l₁ <+: l₂) (hh : l₁.head? = some c) : l₂.head? = some c := by
  obtain ⟨t, rfl⟩ := h
  cases l₁ with
  | nil => simp at hh
  | cons a rest => simpa using hh

lemma collapseDashes_head? (l : List Char) :
    (collapseDashes l).head? = l.head? := by
  induction l with
  | nil => rfl
  | cons a rest ih =>
    cases rest with
    | nil => rfl
    | cons b bs =>
      unfold collapseDashes
      by_cases hd : isDash a && isDash b
      · rw [if_pos hd]
        have hab : a = b := by
          have h1 := isDash_iff.mp (Bool.and_elim_left hd)
          have h2 := isDash_iff.mp (Bool.and_elim_right hd)
          rw [h1, h2]
        rw [ih, hab]
        rfl
      · rw [if_neg hd]
        rfl

lemma collapseDashes_ne_nil {l : List Char} (h : l ≠ []) :
    collapseDashes l ≠ [] := by
  intro hc
  cases l with
  | nil => exact h rfl
  | cons a rest =>
    have := collapseDashes_head? (a :: rest)
    rw [hc] at this
    simp at this

lemma collapseDashes_getLast? (l : List Char) :
    (collapseDashes l).getLast? = l.getLast? := by
  induction l with
  | nil => rfl
  | cons a rest ih =>
    cases rest with
    | nil => rfl
    | cons b bs =>
      unfold collapseDashes
      by_cases hd : isDash a && isDash b
      · rw [if_pos hd, ih, List.getLast?_cons_cons]
      · rw [if_neg hd]
        cases hc : collapseDashes (b :: bs) with
        | nil => exact absurd hc (collapseDashes_ne_nil (by simp))
        | cons x xs =>
          rw [List.getLast?_cons_cons, ← hc, ih, List.getLast?_cons_cons]

lemma collapseDashes_mem {l : List Char} {c : Char} (h : c ∈ collapseDashes l) :
    c ∈ l := by
  induction l with
  | nil => exact absurd h (by simp [collapseDashes])
  | cons a rest ih =>
    cases rest with
    | nil => exact h
    | cons b bs =>
      unfold collapseDashes at h
      by_cases hd : isDash a && isDash b
      · rw [if_pos hd] at h
        exact List.mem_cons_of_mem a (ih h)
      · rw [if_neg hd] at h
        rcases List.mem_cons.mp h with h1 | h2
        · exact h1 ▸ List.mem_cons_self a _
        · exact List.mem_cons_of_mem a (ih h2)

lemma collapseDashes_chain' (l : List Char) :
    List.Chain' noDD (collapseDashes l) := by
  induction l with
  | nil => exact List.chain'_nil
  | cons a rest ih =>
    cases rest with
    | nil => exact List.chain'_singleton a
    | cons b bs =>
      unfold collapseDashes
      by_cases hd : isDash a && isDash b
      · rw [if_pos hd]
        exact ih
      · rw [if_neg hd]
        refine List.chain'_cons'.mpr ⟨?_, ih⟩
        intro y hy
        rw [collapseDashes_head?] at hy
        simp only [List.head?_cons, Option.mem_def, Option.some.injEq] at hy
        subst hy
        intro hab
        apply hd
        rw [isDash_iff.mpr hab.1, isDash_iff.mpr hab.2]
        rfl

lemma collapseDashes_eq_self {l : List Char} (h : List.Chain' noDD l) :
    collapseDashes l = l := by
  induction l with
  | nil => rfl
  | cons a rest ih =>
    cases rest with
    | nil => rfl
    | cons b bs =>
      obtain ⟨hab, htail⟩ := List.chain'_cons.mp h
      unfold collapseDashes
      rw [if_neg, ih htail]
      intro hd
      exact hab ⟨isDash_iff.mp (Bool.and_elim_left hd), isDash_iff.mp (Bool.and_elim_right hd)⟩

lemma char_toNat_inj {c d : Char} (h : c.toNat = d.toNat) : c = d := by
  rw [← Char.ofNat_toNat c, ← Char.ofNat_toNat d, h]

lemma validChar_dash : validChar '-' = true := by decide

lemma alnum_of_valid_not_dash {c : Char} (hv : validChar c = true)
    (hd : isDash c = false) : alnumChar c = true := by
  have h1 := of_decide_eq_true hv
  have h2 : c ≠ '-' := by
    intro hc
    rw [hc] at hd
    simp [isDash] at hd
  have h3 : c.toNat ≠ 45 := fun hn => h2 (char_toNat_inj hn)
  exact decide_eq_true (by omega)

lemma map_eq_self_of {α : Type} (f : α → α) (l : List α)
    (h : ∀ x ∈ l, f x = x) : l.map f = l := by
  induction l with
  | nil => rfl
  | cons a rest ih =>
    rw [List.map_cons, h a (List.mem_cons_self a rest),
        ih (fun x hx => h x (List.mem_cons_of_mem a hx))]

lemma mem_sanitizeCore_valid {l : List Char} {c : Char}
    (h : c ∈ sanitizeCore l) : validChar c = true := by
  have hrepl : ∀ x ∈ (l.map Char.toLower).map (fun c => if validChar c then c else '-'),
      validChar x = true := by
    intro x hx
    rcases List.mem_map.mp hx with ⟨y, _, rfl⟩
    by_cases hv : validChar y = true
    · rw [if_pos hv]; exact hv
    · rw [if_neg hv]; exact validChar_dash
  simp only [sanitizeCore] at h
  split at h
  · have h1 : c ∈ collapseDashes (stripDashes ((l.map Char.toLower).map
        (fun c => if validChar c then c else '-'))) :=
      ((pyRStrip_front _ _).sublist.trans (List.take_sublist _ _)).mem h
    have h2 := collapseDashes_mem h1
    have h3 := ((pyRStrip_front _ _).sublist.trans (List.dropWhile_sublist _)).mem h2
    exact hrepl c h3
  · have h2 := collapseDashes_mem h
    have h3 := ((pyRStrip_front _ _).sublist.trans (List.dropWhile_sublist _)).mem h2
    exact hrepl c h3

lemma collapsed_stripped_head {l : List Char} {c : Char}
    (h : (collapseDashes (stripDashes l)).head? = some c) : isDash c = false := by
  rw [collapseDashes_head?] at h
  have h1 := head?_of_front (pyRStrip_front _ _) h
  exact head?_dropWhile_false _ _ _ h1

lemma sanitizeCore_head_not_dash {l : List Char} {c : Char}
    (h : (sanitizeCore l).head? = some c) : isDash c = false := by
  simp only [sanitizeCore] at h
  split at h
  · have h1 := head?_of_front (pyRStrip_front _ _) h
    have h2 := head?_of_front ( List.take_prefix _ _) h1
    exact collapsed_stripped_head h2
  · exact collapsed_stripped_head h

lemma sanitizeCore_last_not_dash {l : List Char} {c : Char}
    (h : (sanitizeCore l).getLast? = some c) : isDash c = false := by
  simp only [sanitizeCore] at h
  split at h
  · exact pyRStrip_getLast? _ _ _ h
  · rw [collapseDashes_getLast?] at h
    exact pyRStrip_getLast? _ _ _ h

lemma sanitizeCore_length_le (l : List Char) : (sanitizeCore l).length ≤ 253 := by
  simp only [sanitizeCore]
  split
  · have h1 := (pyRStrip_front isDash ((collapseDashes (stripDashes ((l.map Char.toLower).map
      (fun c => if validChar c then c else '-')))).take 253)).length_le
    rw [List.length_take] at h1
    omega
  · omega

lemma sanitizeCore_chain' (l : List Char) : List.Chain' noDD (sanitizeCore l) := by
  simp only [sanitizeCore]
  split
  · exact List.Chain'.prefix (collapseDashes_chain' _)
      ((pyRStrip_front _ _).trans ( List.take_prefix _ _))
  · exact collapseDashes_chain' _

lemma sanitizeCore_fixpoint {y : List Char}
    (hvalid : ∀ c ∈ y, validChar c = true)
    (hhead : ∀ c, y.head? = some c → isDash c = false)
    (hlast : ∀ c, y.getLast? = some c → isDash c = false)
    (hchain : List.Chain' noDD y)
    (hlen : y.length ≤ 253) :
    sanitizeCore y = y := by
  have hlower : y.map Char.toLower = y :=
    map_eq_self_of _ _ (fun x hx => toLower_eq_self_of_validChar (hvalid x hx))
  have hreplmap : y.map (fun c => if validChar c then c else '-') = y :=
    map_eq_self_of _ _ (fun x hx => if_pos (hvalid x hx))
  have hdrop : y.dropWhile isDash = y := by
    cases y with
    | nil => rfl
    | cons a rest =>
      rw [List.dropWhile_cons, if_neg]
      rw [hhead a rfl]
      simp
  have hrstrip : pyRStrip isDash y = y := pyRStrip_eq_self _ _ (fun c hc => hlast c hc)
  have hcoll : collapseDashes y = y := collapseDashes_eq_self hchain
  simp only [sanitizeCore, stripDashes, hlower, hreplmap, hdrop, hrstrip, hcoll]
  rw [if_neg (by omega)]

/-- C9: `sanitize_k8s_name` raises a validation error exactly when the sanitised
result would be empty; on every accepted input it is idempotent
(`sanitize(sanitize(x)) = sanitize(x)`), its result matches the regular
expression `^[a-z0-9]([a-z0-9-]*[a-z0-9])?$`, and its result has length at
most 253. -/
theorem sanitize_k8s_name_spec (x : String) :
    ((∃ msg, sanitize_k8s_name x = Except.error msg) ↔ sanitizeCore x.data = []) ∧
    ∀ y, sanitize_k8s_name x = Except.ok y →
      sanitize_k8s_name y = Except.ok y ∧ specK8sNameRegex y.data = true ∧
        y.length ≤ 253 := by
  constructor
  · simp only [sanitize_k8s_name]
    by_cases he : (sanitizeCore x.data).isEmpty
    · rw [if_pos he]
      exact ⟨fun _ => List.isEmpty_iff.mp he, fun _ => ⟨_, rfl⟩⟩
    · rw [if_neg he]
      constructor
      · rintro ⟨msg, hmsg⟩
        exact absurd hmsg (by simp)
      · intro hnil
        exact absurd (List.isEmpty_iff.mpr hnil) he
  · intro y hy
    have hdata : y.data = sanitizeCore x.data ∧ (sanitizeCore x.data).isEmpty = false := by
      simp only [sanitize_k8s_name] at hy
      by_cases he : (sanitizeCore x.data).isEmpty
      · rw [if_pos he] at hy
        exact absurd hy (by simp)
      · rw [if_neg he] at hy
        exact ⟨by rw [← Except.ok.inj hy], Bool.eq_false_iff.mpr he⟩
    obtain ⟨hdata, hne⟩ := hdata
    have hnil : y.data ≠ [] := by
      rw [hdata]
      exact List.isEmpty_eq_false.mp hne
    have hvalid : ∀ c ∈ y.data, validChar c = true := by
      rw [hdata]; exact fun c hc => mem_sanitizeCore_valid hc
    have hhead : ∀ c, y.data.head? = some c → isDash c = false := by
      rw [hdata]; exact fun c hc => sanitizeCore_head_not_dash hc
    have hlast : ∀ c, y.data.getLast? = some c → isDash c = false := by
      rw [hdata]; exact fun c hc => sanitizeCore_last_not_dash hc
    have hchain : List.Chain' noDD y.data := by
      rw [hdata]; exact sanitizeCore_chain' _
    have hlen : y.data.length ≤ 253 := by
      rw [hdata]; exact sanitizeCore_length_le _
    have hfix : sanitizeCore y.data = y.data :=
      sanitizeCore_fixpoint hvalid hhead hlast hchain hlen
    refine ⟨?_, ?_, ?_⟩
    · simp only [sanitize_k8s_name, hfix]
      rw [if_neg (by rw [List.isEmpty_iff]; exact hnil)]
    · cases hh : y.data.head? with
      | none => exact absurd (List.head?_eq_none_iff.mp hh) hnil
      | some c =>
        cases hl : y.data.getLast? with
        | none => exact absurd (List.getLast?_eq_none_iff.mp hl) hnil
        | some d =>
          have hc : alnumChar c = true :=
            alnum_of_valid_not_dash (hvalid c (List.mem_of_mem_head? hh)) (hhead c hh)
          have hd : alnumChar d = true :=
            alnum_of_valid_not_dash (hvalid d (List.mem_of_mem_getLast? hl)) (hlast d hl)
          simp [specK8sNameRegex, hh, hl, hc, hd, List.all_eq_true.mpr hvalid]
    · have : y.length = y.data.length := rfl
      omega

/-- Witness for C9 at the concrete input `"My Model"`, whose sanitised form is
`"my-model"`: the hypothesis of the idempotence/shape conjunct is discharged by
evaluation. -/
theorem sanitize_k8s_name_spec_witness :
    sanitize_k8s_name "my-model" = Except.ok "my-model" ∧
      specK8sNameRegex "my-model".data = true ∧ ("my-model" : String).length ≤ 253 :=
  (sanitize_k8s_name_spec "My Model").2 "my-model" (by rfl)

/-! ## Event data model (webhook_handler.py, kubernetes_client.py)

The two external collaborators are explicit environments of response
functions; each embedded client method returns its Python result (or the
exception it raises) paired with the list of raw Kubernetes API calls it
issued. Interpolated details inside exception message strings are
abbreviated to the fixed parts the handlers actually propagate. -/

/-- Python exception values flowing through the handlers:
`KubernetesClientError` (with its subclass
`InferenceServiceAlreadyExistsError` flagged by `isExists`) and any other
`Exception`; `msg` is `str(e)`. -/
inductive PyExn where
  | k8sError (isExists : Bool) (msg : String)
  | other (msg : String)
deriving DecidableEq

/-- Python `str(e)` of an exception value. -/
def PyExn.str : PyExn → String
  | .k8sError _ m => m
  | .other m => m

/-- Python `f"{x}"` on a possibly-`None` value. -/
def pyOptStr : Option String → String
  | none => "None"
  | some s => s

/-- The `data` mapping of a `model_version_tag` event; `data.get(k)` of an
absent key is `none`. -/
structure TagEventData where
  name : Option String
  version : Option String
  key : Option String
  value : Option String
deriving DecidableEq

/-- The JSON value under the envelope's `data` key:
`webhook_data.get("data", {})` is either a mapping or some other JSON value,
on which `.get(...)` raises `AttributeError` (carrying the Python type name). -/
inductive PyData where
  | dict (d : TagEventData)
  | nonDict (typeName : String)
deriving DecidableEq

/-- The webhook envelope fields the router reads (`entity`, `action`,
`data`; `timestamp` is only logged). -/
structure WebhookEnvelope where
  entity : Option String
  action : Option String
  data : PyData
deriving DecidableEq

/-- A raw `kubernetes.client.CustomObjectsApi` failure: an `ApiException`
with an HTTP status, or some other exception from the SDK call. -/
inductive ApiFail where
  | api (status : Nat) (reason : String)
  | exn (msg : String)
deriving DecidableEq

/-- Response metadata read off create/patch responses
(`response.get("metadata", {}).get("uid")`). -/
structure RespMeta where
  uid : Option String
deriving DecidableEq

/-- A listed/fetched InferenceService object: the `metadata.name` and
`metadata.labels` fields the reconciler and endpoints read. -/
structure K8sObject where
  name : String
  labels : List (String × String)
deriving DecidableEq

/-- An InferenceService manifest. `render_inference_service`
(templates.py:82-157) renders a Jinja2 template that is not among the
embedded sources; the manifest is modelled as the record of template
variables passed to the template (templates.py:123-131) together with the
fixed kind `InferenceService` the template declares (asserted by the
repository's template tests). -/
structure Manifest where
  kind : String
  name : String
  nspace : String
  model_name : String
  model_version : String
  storage_uri : String
  run_id : String
  experiment_id : String
deriving DecidableEq

/-- One raw call issued to the Kubernetes API server. -/
inductive K8sCall where
  | get (name : String)
  | create (name : String) (m : Manifest)
  | patch (name : String) (m : Manifest)
  | delete (name : String)
  | list (selector : Option String)
deriving DecidableEq

/-- The Kubernetes API server as an environment of response functions. -/
structure K8sApi where
  getObj : String → Except ApiFail K8sObject
  createObj : String → Manifest → Except ApiFail RespMeta
  patchObj : String → Manifest → Except ApiFail RespMeta
  deleteObj : String → Except ApiFail Unit
  listObjs : Option String → Except ApiFail (List K8sObject)

/-- The result dict of `create_inference_service` and
`update_inference_service` (`status`, `name`, `namespace`, `uid`). -/
structure UpsertRes where
  status : String
  name : String
  nspace : String
  uid : Option String
deriving DecidableEq

/-- The result dict of `delete_inference_service`
(`status`, `name`, `namespace`, optional `note`). -/
structure DeleteRes where
  status : String
  name : String
  nspace : String
  note : Option String
deriving DecidableEq

/-- Embedding of `KubernetesClient.create_inference_service`
(kubernetes_client.py:72-141): a kind mismatch raises
`KubernetesClientError` before any call; HTTP 409 raises
`InferenceServiceAlreadyExistsError`; any other failure is wrapped in
`KubernetesClientError`. -/
def create_inference_service (api : K8sApi) (nspace name : String) (manifest : Manifest) :
    Except PyExn UpsertRes × List K8sCall :=
  if manifest.kind ≠ "InferenceService" then
    (Except.error (PyExn.k8sError false
      ("Unexpected error creating InferenceService: Invalid manifest: expected kind InferenceService, got " ++ manifest.kind)), [])
  else
    match api.createObj name manifest with
    | .ok meta =>
      (Except.ok { status := "created", name := name, nspace := nspace, uid := meta.uid },
       [K8sCall.create name manifest])
    | .error (.api 409 _) =>
      (Except.error (PyExn.k8sError true
        ("InferenceService " ++ name ++ " already exists in namespace " ++ nspace)),
       [K8sCall.create name manifest])
    | .error (.api _ _) =>
      (Except.error (PyExn.k8sError false
        ("Kubernetes API error creating InferenceService " ++ name)),
       [K8sCall.create name manifest])
    | .error (.exn m) =>
      (Except.error (PyExn.k8sError false
        ("Unexpected error creating InferenceService " ++ name ++ ": " ++ m)),
       [K8sCall.create name manifest])

/-- Embedding of `KubernetesClient.delete_inference_service`
(kubernetes_client.py:143-203): one raw delete call; HTTP 404 is mapped to
success with note `already_deleted` (idempotent delete); every other
failure is wrapped in `KubernetesClientError`. -/
def delete_inference_service (api : K8sApi) (nspace name : String) :
    Except PyExn DeleteRes × List K8sCall :=
  match api.deleteObj name with
  | .ok _ =>
    (Except.ok { status := "deleted", name := name, nspace := nspace, note := none },
     [K8sCall.delete name])
  | .error (.api 404 _) =>
    (Except.ok { status := "deleted", name := name, nspace := nspace, note := some "already_deleted" },
     [K8sCall.delete name])
  | .error (.api _ _) =>
    (Except.error (PyExn.k8sError false
      ("Kubernetes API error deleting InferenceService " ++ name)),
     [K8sCall.delete name])
  | .error (.exn m) =>
    (Except.error (PyExn.k8sError false
      ("Unexpected error deleting InferenceService " ++ name ++ ": " ++ m)),
     [K8sCall.delete name])

/-- Embedding of `KubernetesClient.get_inference_service`
(kubernetes_client.py:205-260): `none` on HTTP 404, otherwise wrapped
errors. -/
def get_inference_service (api : K8sApi) (name : String) :
    Except PyExn (Option K8sObject) × List K8sCall :=
  match api.getObj name with
  | .ok obj => (Except.ok (some obj), [K8sCall.get name])
  | .error (.api 404 _) => (Except.ok none, [K8sCall.get name])
  | .error (.api _ _) =>
    (Except.error (PyExn.k8sError false
      ("Kubernetes API error getting InferenceService " ++ name)), [K8sCall.get name])
  | .error (.exn m) =>
    (Except.error (PyExn.k8sError false
      ("Unexpected error getting InferenceService " ++ name ++ ": " ++ m)), [K8sCall.get name])

/-- Embedding of `KubernetesClient.list_inference_services`
(kubernetes_client.py:262-322). -/
def list_inference_services (api : K8sApi) (label_selector : Option String) :
    Except PyExn (List K8sObject) × List K8sCall :=
  match api.listObjs label_selector with
  | .ok items => (Except.ok items, [K8sCall.list label_selector])
  | .error (.api _ _) =>
    (Except.error (PyExn.k8sError false "Kubernetes API error listing InferenceServices"),
     [K8sCall.list label_selector])
  | .error (.exn m) =>
    (Except.error (PyExn.k8sError false ("Unexpected error listing InferenceServices: " ++ m)),
     [K8sCall.list label_selector])

/-- Embedding of `KubernetesClient.update_inference_service`
(kubernetes_client.py:324-403): validate the kind, fetch the object, patch
it if present, otherwise create it; `KubernetesClientError` from the inner
calls is re-raised unchanged. -/
def update_inference_service (api : K8sApi) (nspace name : String) (manifest : Manifest) :
    Except PyExn UpsertRes × List K8sCall :=
  if manifest.kind ≠ "InferenceService" then
    (Except.error (PyExn.k8sError false
      ("Invalid manifest: expected kind InferenceService, got " ++ manifest.kind)), [])
  else
    match get_inference_service api name with
    | (.error e, tr) => (.error e, tr)
    | (.ok (some _), tr) =>
      match api.patchObj name manifest with
      | .ok meta =>
        (Except.ok { status := "updated", name := name, nspace := nspace, uid := meta.uid },
         tr ++ [K8sCall.patch name manifest])
      | .error (.api _ _) =>
        (Except.error (PyExn.k8sError false
          ("Kubernetes API error updating InferenceService " ++ name)),
         tr ++ [K8sCall.patch name manifest])
      | .error (.exn m) =>
        (Except.error (PyExn.k8sError false
          ("Unexpected error updating InferenceService " ++ name ++ ": " ++ m)),
         tr ++ [K8sCall.patch name manifest])
    | (.ok none, tr) =>
      let cr := create_inference_service api nspace name manifest
      (cr.1, tr ++ cr.2)

/-! ## Templates (templates.py) and MLflow collaborator records -/

/-- Embedding of `generate_inference_service_name(model_name, model_version)`
(templates.py:64-79); the f-string renders `None` fields as `"None"`. -/
def generate_inference_service_name (model_name model_version : Option String) :
    Except String String :=
  sanitize_k8s_name (pyOptStr model_name ++ "-v" ++ pyOptStr model_version)

/-- Embedding of `render_inference_service` (templates.py:82-157): computes
the (sanitised) name and packages the template variables (see `Manifest`);
`Except.error` is the `ValueError` from name sanitisation. -/
def render_inference_service (model_name model_version : Option String)
    (storage_uri run_id experiment_id nspace : String) (name : Option String) :
    Except String Manifest :=
  match (match name with
         | none => generate_inference_service_name model_name model_version
         | some nm => sanitize_k8s_name nm) with
  | .error e => .error e
  | .ok n =>
    .ok { kind := "InferenceService", name := n, nspace := nspace,
          model_name := pyOptStr model_name, model_version := pyOptStr model_version,
          storage_uri := storage_uri, run_id := run_id, experiment_id := experiment_id }

/-- The model-version fields the handlers read from
`MLflowClient.get_model_version` (`run_id` and `source`). -/
structure ModelVersionRec where
  run_id : String
  source : String
deriving DecidableEq

/-- The run field the handlers read from `MLflowClient.get_run`
(`experiment_id`). -/
structure RunRec where
  experiment_id : String
deriving DecidableEq

/-- The MLflow registry collaborator as seen by the webhook handler. -/
structure MlflowEnv where
  get_model_version : Option String → Option String → Except PyExn ModelVersionRec
  get_run : String → Except PyExn RunRec

/-- A tag-handler result dict; keys absent from a given result shape are
`none`. -/
structure HResult where
  action : String
  model_name : Option String := none
  version : Option String := none
  service_name : Option String := none
  nspace : Option String := none
  reason : Option String := none
  message : Option String := none
  status : Option String := none
  uid : Option String := none
  note : Option String := none
deriving DecidableEq

/-- Embedding of `handle_tag_set_event(data)` (webhook_handler.py:261-538):
the result (or the exception the handler lets propagate) paired with the
Kubernetes API calls made. A non-mapping `data` value makes the first
`data.get` raise `AttributeError`. On `deploy=true` the storage URI passed
to the manifest is the model version's `source` field unchanged
(webhook_handler.py:328,367). -/
def handle_tag_set_event (env : MlflowEnv) (api : K8sApi) (nspace : String)
    (data : PyData) : Except PyExn HResult × List K8sCall :=
  match data with
  | .nonDict t =>
    (Except.error (PyExn.other ("'" ++ t ++ "' object has no attribute 'get'")), [])
  | .dict d =>
    if d.key ≠ some "deploy" then
      (Except.ok { action := "ignored",
                   reason := some ("Tag key '" ++ pyOptStr d.key ++ "' is not 'deploy'"),
                   model_name := d.name, version := d.version }, [])
    else if d.value = some "true" then
      match env.get_model_version d.name d.version with
      | .error e =>
        (Except.ok { action := "error", model_name := d.name, version := d.version,
                     message := some ("Failed to fetch model details from MLflow: " ++ e.str) }, [])
      | .ok mv =>
        match env.get_run mv.run_id with
        | .error e =>
          (Except.ok { action := "error", model_name := d.name, version := d.version,
                       message := some ("Failed to fetch model details from MLflow: " ++ e.str) }, [])
        | .ok run =>
          match render_inference_service d.name d.version mv.source mv.run_id
              run.experiment_id nspace none with
          | .error e =>
            (Except.ok { action := "error", model_name := d.name, version := d.version,
                         message := some ("Failed to generate manifest: " ++ e) }, [])
          | .ok manifest =>
            match generate_inference_service_name d.name d.version with
            | .error e =>
              (Except.ok { action := "error", model_name := d.name, version := d.version,
                           message := some ("Failed to generate manifest: " ++ e) }, [])
            | .ok service_name =>
              match update_inference_service api nspace service_name manifest with
              | (.ok r, tr) =>
                (Except.ok { action := "deployed", model_name := d.name, version := d.version,
                             service_name := some service_name, nspace := some nspace,
                             status := some r.status, uid := r.uid }, tr)
              | (.error (.k8sError true _), tr) =>
                (Except.ok { action := "deployed", model_name := d.name, version := d.version,
                             service_name := some service_name, nspace := some nspace,
                             note := some "already_exists" }, tr)
              | (.error (.k8sError false m), tr) =>
                (Except.ok { action := "error", model_name := d.name, version := d.version,
                             service_name := some service_name,
                             message := some ("Kubernetes deployment failed: " ++ m) }, tr)
              | (.error (.other m), tr) =>
                (Except.ok { action := "error", model_name := d.name, version := d.version,
                             message := some ("Failed to generate manifest: " ++ m) }, tr)
    else if d.value = some "false" then
      match generate_inference_service_name d.name d.version with
      | .error e => (Except.error (PyExn.other e), [])
      | .ok service_name =>
        match delete_inference_service api nspace service_name with
        | (.ok r, tr) =>
          (Except.ok { action := "undeployed", model_name := d.name, version := d.version,
                       service_name := some service_name, nspace := some nspace,
                       status := some r.status, note := r.note }, tr)
        | (.error (.k8sError _ m), tr) =>
          (Except.ok { action := "error", model_name := d.name, version := d.version,
                       service_name := some service_name,
                       message := some ("Kubernetes deletion failed: " ++ m) }, tr)
        | (.error (.other m), tr) => (Except.error (PyExn.other m), tr)
    else
      (Except.ok { action := "ignored",
                   reason := some ("Deploy tag value '" ++ pyOptStr d.value ++ "' is not 'true' or 'false'"),
                   model_name := d.name, version := d.version }, [])

/-- Embedding of `handle_tag_deleted_event(data)` (webhook_handler.py:541-638):
deleting the `deploy` tag triggers the same undeploy path. -/
def handle_tag_deleted_event (api : K8sApi) (nspace : String) (data : PyData) :
    Except PyExn HResult × List K8sCall :=
  match data with
  | .nonDict t =>
    (Except.error (PyExn.other ("'" ++ t ++ "' object has no attribute 'get'")), [])
  | .dict d =>
    if d.key ≠ some "deploy" then
      (Except.ok { action := "ignored",
                   reason := some ("Tag key '" ++ pyOptStr d.key ++ "' is not 'deploy'"),
                   model_name := d.name, version := d.version }, [])
    else
      match generate_inference_service_name d.name d.version with
      | .error e => (Except.error (PyExn.other e), [])
      | .ok service_name =>
        match delete_inference_service api nspace service_name with
        | (.ok r, tr) =>
          (Except.ok { action := "undeployed", model_name := d.name, version := d.version,
                       service_name := some service_name, nspace := some nspace,
                       status := some r.status, note := r.note }, tr)
        | (.error (.k8sError _ m), tr) =>
          (Except.ok { action := "error", model_name := d.name, version := d.version,
                       service_name := some service_name,
                       message := some ("Kubernetes deletion failed: " ++ m) }, tr)
        | (.error (.other m), tr) => (Except.error (PyExn.other m), tr)

/-- The envelope-level result dict of `process_webhook_event`. -/
structure PResult where
  status : String
  entity : Option String := none
  action : Option String := none
  delivery_id : String := ""
  message : Option String := none
  handler_result : Option HResult := none
deriving DecidableEq

/-- Embedding of `process_webhook_event(webhook_data, delivery_id)`
(webhook_handler.py:165-258): route on `(entity, action)`, delegate to the
tag handlers, catch any exception they raise and convert it into a
`status="error"` body (keeping the envelope's `entity`/`action` fields);
any other `(entity, action)` yields a success body stating the event was
received but not handled. The embedding is a total function: the router
never raises. -/
def process_webhook_event (env : MlflowEnv) (api : K8sApi) (nspace : String)
    (wd : WebhookEnvelope) (delivery_id : String) : PResult :=
  if wd.entity = some "model_version_tag" ∧ wd.action = some "set" then
    match (handle_tag_set_event env api nspace wd.data).1 with
    | .ok r =>
      { status := "success", entity := wd.entity, action := wd.action,
        delivery_id := delivery_id, handler_result := some r }
    | .error e =>
      { status := "error", message := some ("Error processing event: " ++ e.str),
        entity := wd.entity, action := wd.action, delivery_id := delivery_id }
  else if wd.entity = some "model_version_tag" ∧ wd.action = some "deleted" then
    match (handle_tag_deleted_event api nspace wd.data).1 with
    | .ok r =>
      { status := "success", entity := wd.entity, action := wd.action,
        delivery_id := delivery_id, handler_result := some r }
    | .error e =>
      { status := "error", message := some ("Error processing event: " ++ e.str),
        entity := wd.entity, action := wd.action, delivery_id := delivery_id }
  else
    { status := "success",
      message := some ("Event " ++ pyOptStr wd.entity ++ "." ++ pyOptStr wd.action ++
        " received but not handled"),
      entity := wd.entity, action := wd.action, delivery_id := delivery_id }

/-! ## `resolve_mlflow_artifacts_uri` (mlflow_client.py:14-46) -/

/-- Python `str.replace(pat, rep)` worker: replace all non-overlapping
occurrences left to right; `fuel` (instantiated with the input length, an
upper bound on the number of steps for nonempty `pat`) keeps the recursion
structural so that the definition reduces inside the kernel. -/
def pyReplaceAux : Nat → List Char → List Char → List Char → List Char
  | 0, l, _, _ => l
  | _ + 1, [], _, _ => []
  | fuel + 1, c :: rest, pat, rep =>
    if pat ≠ [] ∧ (c :: rest).take pat.length = pat then
      rep ++ pyReplaceAux fuel ((c :: rest).drop pat.length) pat rep
    else
      c :: pyReplaceAux fuel rest pat rep

/-- Python `str.replace(pat, rep)` on character lists. -/
def pyReplace (l pat rep : List Char) : List Char :=
  pyReplaceAux l.length l pat rep

/-- Embedding of `resolve_mlflow_artifacts_uri(source_uri)`
(mlflow_client.py:14-46), with `settings.artifacts_uri` passed as
`artifacts_uri`: a source URI that does not use the `mlflow-artifacts:`
logical scheme is returned unchanged; otherwise the scheme marker is
stripped and the remaining path is appended to the configured base
(`f"{artifacts_base}/{mlflow_path}"` after `rstrip("/")`). -/
def resolve_mlflow_artifacts_uri (artifacts_uri : String) (source_uri : String) : String :=
  if ¬(source_uri.data.take 19 = "mlflow-artifacts://".data) ∧
     ¬(source_uri.data.take 18 = "mlflow-artifacts:/".data) then
    source_uri
  else
    let mlflow_path :=
      pyReplace (pyReplace source_uri.data "mlflow-artifacts://".data [])
        "mlflow-artifacts:/".data []
    let artifacts_base := pyRStrip (fun c => c == '/') artifacts_uri.data
    ⟨artifacts_base ++ '/' :: mlflow_path⟩

/-! ## Concrete collaborator environments used by closed evaluations -/

/-- A cluster whose namespace holds no InferenceService: gets, patches and
deletes answer HTTP 404, creates succeed, lists are empty. -/
def emptyClusterApi : K8sApi where
  getObj := fun _ => .error (.api 404 "Not Found")
  createObj := fun _ _ => .ok { uid := some "uid-1" }
  patchObj := fun _ _ => .error (.api 404 "Not Found")
  deleteObj := fun _ => .error (.api 404 "Not Found")
  listObjs := fun _ => .ok []

/-- A cluster on which deletes succeed (the targeted object exists). -/
def deleteOkClusterApi : K8sApi where
  getObj := fun _ => .error (.api 404 "Not Found")
  createObj := fun _ _ => .ok { uid := some "uid-1" }
  patchObj := fun _ _ => .error (.api 404 "Not Found")
  deleteObj := fun _ => .ok ()
  listObjs := fun _ => .ok []

/-- A registry holding one model version whose `source` uses the
`mlflow-artifacts:` logical scheme. -/
def mlflowEnvLogicalSource : MlflowEnv where
  get_model_version := fun _ _ =>
    .ok { run_id := "run-1", source := "mlflow-artifacts:/1/models/m-abc/artifacts" }
  get_run := fun _ => .ok { experiment_id := "1" }

/-- An unreachable registry: every lookup raises. -/
def mlflowEnvDown : MlflowEnv where
  get_model_version := fun _ _ => .error (.other "registry unreachable")
  get_run := fun _ => .error (.other "registry unreachable")

/-- C2 (failing evaluation): in the tag-set deploy path the storage URI
placed in the rendered InferenceService manifest is the model version's raw
`source` — here the logical URI `mlflow-artifacts:/1/models/m-abc/artifacts`
— and not its rewrite against the configured artifact-store base, although
`resolve_mlflow_artifacts_uri` (which only the polling path calls,
polling_service.py:177) would produce that rewrite. -/
theorem handle_tag_set_event_storage_uri_unresolved :
    (handle_tag_set_event mlflowEnvLogicalSource emptyClusterApi "ns"
        (PyData.dict { name := some "m", version := some "1",
                       key := some "deploy", value := some "true" })).2 =
      [K8sCall.get "m-v1",
       K8sCall.create "m-v1"
         { kind := "InferenceService", name := "m-v1", nspace := "ns",
           model_name := "m", model_version := "1",
           storage_uri := "mlflow-artifacts:/1/models/m-abc/artifacts",
           run_id := "run-1", experiment_id := "1" }] ∧
    resolve_mlflow_artifacts_uri "s3://bucket" "mlflow-artifacts:/1/models/m-abc/artifacts" =
      "s3://bucket/1/models/m-abc/artifacts" ∧
    "mlflow-artifacts:/1/models/m-abc/artifacts" ≠
      resolve_mlflow_artifacts_uri "s3://bucket" "mlflow-artifacts:/1/models/m-abc/artifacts" :=
  ⟨rfl, rfl, by decide⟩

/-- C6 (counterexample): when the delegated tag handler raises (here:
`data` is not a mapping, so `data.get` raises `AttributeError`), the
caught-exception body produced by `process_webhook_event` carries
`status="error"` while its `action` field keeps the envelope's action
(`"set"`); it is not a result with `action="error"` as the claim states. -/
theorem process_webhook_event_error_keeps_action :
    (process_webhook_event mlflowEnvDown emptyClusterApi "ns"
        { entity := some "model_version_tag", action := some "set",
          data := PyData.nonDict "str" } "d-1") =
      { status := "error",
        message := some "Error processing event: 'str' object has no attribute 'get'",
        entity := some "model_version_tag", action := some "set",
        delivery_id := "d-1" } ∧
    (process_webhook_event mlflowEnvDown emptyClusterApi "ns"
        { entity := some "model_version_tag", action := some "set",
          data := PyData.nonDict "str" } "d-1").action ≠ some "error" :=
  ⟨rfl, by decide⟩

/-- C6 (amended): `process_webhook_event` never raises (it is a total
function); every envelope whose `(entity, action)` is not
`("model_version_tag", "set")` or `("model_version_tag", "deleted")` yields
a success-status body stating the event was received but not handled; and
an exception raised by a delegated tag handler is caught and converted into
an error-shaped body with `status="error"` and
`message = "Error processing event: " ++ description` (the `action` field
keeps the envelope's action) instead of being propagated to the HTTP layer. -/
theorem process_webhook_event_spec (env : MlflowEnv) (api : K8sApi) (nspace : String)
    (wd : WebhookEnvelope) (delivery_id : String) :
    (¬(wd.entity = some "model_version_tag" ∧
        (wd.action = some "set" ∨ wd.action = some "deleted")) →
      (process_webhook_event env api nspace wd delivery_id).status = "success" ∧
      (process_webhook_event env api nspace wd delivery_id).message =
        some ("Event " ++ pyOptStr wd.entity ++ "." ++ pyOptStr wd.action ++
          " received but not handled")) ∧
    (∀ e, wd.entity = some "model_version_tag" → wd.action = some "set" →
      (handle_tag_set_event env api nspace wd.data).1 = Except.error e →
      (process_webhook_event env api nspace wd delivery_id).status = "error" ∧
      (process_webhook_event env api nspace wd delivery_id).message =
        some ("Error processing event: " ++ e.str)) ∧
    (∀ e, wd.entity = some "model_version_tag" → wd.action = some "deleted" →
      (handle_tag_deleted_event api nspace wd.data).1 = Except.error e →
      (process_webhook_event env api nspace wd delivery_id).status = "error" ∧
      (process_webhook_event env api nspace wd delivery_id).message =
        some ("Error processing event: " ++ e.str)) := by
  refine ⟨?_, ?_, ?_⟩
  · intro hun
    have h1 : ¬(wd.entity = some "model_version_tag" ∧ wd.action = some "set") :=
      fun ⟨he, ha⟩ => hun ⟨he, Or.inl ha⟩
    have h2 : ¬(wd.entity = some "model_version_tag" ∧ wd.action = some "deleted") :=
      fun ⟨he, ha⟩ => hun ⟨he, Or.inr ha⟩
    unfold process_webhook_event
    rw [if_neg h1, if_neg h2]
    exact ⟨rfl, rfl⟩
  · intro e he ha herr
    unfold process_webhook_event
    rw [if_pos ⟨he, ha⟩, herr]
    exact ⟨rfl, rfl⟩
  · intro e he ha herr
    have h1 : ¬(wd.entity = some "model_version_tag" ∧ wd.action = some "set") := by
      rintro ⟨-, ha2⟩
      rw [ha] at ha2
      exact absurd (Option.some.inj ha2) (by decide)
    unfold process_webhook_event
    rw [if_neg h1, if_pos ⟨he, ha⟩, herr]
    exact ⟨rfl, rfl⟩

/-- Witness for C6 at concrete inputs: an unhandled `registered_model.created`
envelope yields the success body, and a `model_version_tag.set` envelope whose
handler raises (non-mapping `data`) yields the `status="error"` body. -/
theorem process_webhook_event_spec_witness :
    ((process_webhook_event mlflowEnvDown emptyClusterApi "ns"
        { entity := some "registered_model", action := some "created",
          data := PyData.dict { name := none, version := none, key := none, value := none } }
        "d-7").status = "success" ∧
      (process_webhook_event mlflowEnvDown emptyClusterApi "ns"
        { entity := some "registered_model", action := some "created",
          data := PyData.dict { name := none, version := none, key := none, value := none } }
        "d-7").message =
        some ("Event " ++ pyOptStr (some "registered_model") ++ "." ++
          pyOptStr (some "created") ++ " received but not handled")) ∧
    ((process_webhook_event mlflowEnvDown emptyClusterApi "ns"
        { entity := some "model_version_tag", action := some "deleted",
          data := PyData.nonDict "int" } "d-8").status = "error" ∧
      (process_webhook_event mlflowEnvDown emptyClusterApi "ns"
        { entity := some "model_version_tag", action := some "deleted",
          data := PyData.nonDict "int" } "d-8").message =
        some ("Error processing event: " ++
          (PyExn.other "'int' object has no attribute 'get'").str)) :=
  ⟨(process_webhook_event_spec mlflowEnvDown emptyClusterApi "ns"
      { entity := some "registered_model", action := some "created",
        data := PyData.dict { name := none, version := none, key := none, value := none } }
      "d-7").1 (by decide),
   (process_webhook_event_spec mlflowEnvDown emptyClusterApi "ns"
      { entity := some "model_version_tag", action := some "deleted",
        data := PyData.nonDict "int" } "d-8").2.2
      (PyExn.other "'int' object has no attribute 'get'") rfl rfl rfl⟩

/-- C7: for a tag-set event with `deploy=true`, if fetching the model
version or its run from the registry collaborator raises, the handler
returns a result with `action="error"` and makes no Kubernetes call of any
kind. -/
theorem handle_tag_set_event_fetch_error (env : MlflowEnv) (api : K8sApi)
    (nspace : String) (d : TagEventData)
    (hk : d.key = some "deploy") (hv : d.value = some "true")
    (hfetch : (∃ e, env.get_model_version d.name d.version = Except.error e) ∨
      (∃ mv e, env.get_model_version d.name d.version = Except.ok mv ∧
        env.get_run mv.run_id = Except.error e)) :
    (∃ r, (handle_tag_set_event env api nspace (PyData.dict d)).1 = Except.ok r ∧
      r.action = "error") ∧
    (handle_tag_set_event env api nspace (PyData.dict d)).2 = [] := by
  rcases hfetch with ⟨e, he⟩ | ⟨mv, e, hmv, he⟩
  · simp only [handle_tag_set_event, hk, hv, he, ne_eq, not_true_eq_false,
      if_false, if_true, reduceIte]
    exact ⟨⟨_, rfl, rfl⟩, trivial⟩
  · simp only [handle_tag_set_event, hk, hv, hmv, he, ne_eq, not_true_eq_false,
      if_false, if_true, reduceIte]
    exact ⟨⟨_, rfl, rfl⟩, trivial⟩

/-- Witness for C7: a concrete `deploy=true` event against an unreachable
registry yields `action="error"` with an empty Kubernetes call trace. -/
theorem handle_tag_set_event_fetch_error_witness :
    (∃ r, (handle_tag_set_event mlflowEnvDown emptyClusterApi "ns"
        (PyData.dict { name := some "m", version := some "1",
                       key := some "deploy", value := some "true" })).1 =
      Except.ok r ∧ r.action = "error") ∧
    (handle_tag_set_event mlflowEnvDown emptyClusterApi "ns"
        (PyData.dict { name := some "m", version := some "1",
                       key := some "deploy", value := some "true" })).2 = [] :=
  handle_tag_set_event_fetch_error mlflowEnvDown emptyClusterApi "ns"
    { name := some "m", version := some "1", key := some "deploy", value := some "true" }
    rfl rfl (Or.inl ⟨PyExn.other "registry unreachable", rfl⟩)

/-- C8: undeploy is idempotent. `delete_inference_service` deletes by name
and treats HTTP 404 (not found) as success, so whenever the raw delete call
answers OK or 404 — in particular on the second of two undeploys in a row,
or when undeploying a service that was never deployed — the client returns
a `status="deleted"` result and the `deploy=false` tag handler returns
`action="undeployed"`. -/
theorem undeploy_idempotent (env : MlflowEnv) (api : K8sApi) (nspace : String)
    (d : TagEventData) (name : String)
    (hk : d.key = some "deploy") (hv : d.value = some "false")
    (hname : generate_inference_service_name d.name d.version = Except.ok name)
    (hdel : api.deleteObj name = Except.ok () ∨
      ∃ reason, api.deleteObj name = Except.error (ApiFail.api 404 reason)) :
    (∃ res, (delete_inference_service api nspace name).1 = Except.ok res ∧
      res.status = "deleted") ∧
    (∃ hr, (handle_tag_set_event env api nspace (PyData.dict d)).1 = Except.ok hr ∧
      hr.action = "undeployed" ∧ hr.service_name = some name) := by
  have hdel2 : ∃ res, delete_inference_service api nspace name =
      (Except.ok res, [K8sCall.delete name]) ∧ res.status = "deleted" := by
    rcases hdel with h | ⟨reason, h⟩
    · exact ⟨{ status := "deleted", name := name, nspace := nspace, note := none },
        by simp only [delete_inference_service, h], rfl⟩
    · exact ⟨{ status := "deleted", name := name, nspace := nspace, note := some "already_deleted" },
        by simp only [delete_inference_service, h], rfl⟩
  obtain ⟨res, hres, hstat⟩ := hdel2
  constructor
  · exact ⟨res, by rw [hres], hstat⟩
  · have hh : (handle_tag_set_event env api nspace (PyData.dict d)).1 =
        Except.ok { action := "undeployed", model_name := d.name, version := d.version,
                    service_name := some name, nspace := some nspace,
                    status := some res.status, note := res.note } := by
      simp only [handle_tag_set_event, hk, hv, hname, hres, ne_eq,
        not_true_eq_false, if_false, reduceIte]
      rw [if_neg (by decide)]
    exact ⟨_, hh, rfl, rfl⟩

/-- Witness for C8: undeploying `m-v1` twice in a row — once against a
cluster where the object exists (delete answers OK) and once against a
cluster where it is already gone (delete answers 404) — succeeds both times
with `action="undeployed"`. -/
theorem undeploy_idempotent_witness :
    (((∃ res, (delete_inference_service deleteOkClusterApi "ns" "m-v1").1 =
        Except.ok res ∧ res.status = "deleted") ∧
      (∃ hr, (handle_tag_set_event mlflowEnvDown deleteOkClusterApi "ns"
          (PyData.dict { name := some "m", version := some "1",
                         key := some "deploy", value := some "false" })).1 =
        Except.ok hr ∧ hr.action = "undeployed" ∧ hr.service_name = some "m-v1")) ∧
     ((∃ res, (delete_inference_service emptyClusterApi "ns" "m-v1").1 =
        Except.ok res ∧ res.status = "deleted") ∧
      (∃ hr, (handle_tag_set_event mlflowEnvDown emptyClusterApi "ns"
          (PyData.dict { name := some "m", version := some "1",
                         key := some "deploy", value := some "false" })).1 =
        Except.ok hr ∧ hr.action = "undeployed" ∧ hr.service_name = some "m-v1"))) :=
  ⟨undeploy_idempotent mlflowEnvDown deleteOkClusterApi "ns"
      { name := some "m", version := some "1", key := some "deploy", value := some "false" }
      "m-v1" rfl rfl (by rfl) (Or.inl rfl),
   undeploy_idempotent mlflowEnvDown emptyClusterApi "ns"
      { name := some "m", version := some "1", key := some "deploy", value := some "false" }
      "m-v1" rfl rfl (by rfl) (Or.inr ⟨"Not Found", rfl⟩)⟩

/-! ## Polling (mlflow_client.py:431-477, polling_service.py:82-250) -/

/-- A model-version entry returned by `search_model_versions` (the fields
the poller reads: `version`, `run_id`, `source`, `tags`; a `None` tag map
is `none`, read as `{}`). -/
structure MVEntry where
  version : String
  run_id : String
  source : String
  tags : Option (List (String × String))
deriving DecidableEq

/-- The MLflow registry as seen by the poller. -/
structure MlflowRegistry where
  search_registered_models : Except PyExn (List String)
  search_model_versions : String → Except PyExn (List MVEntry)

/-- A model marked for deployment: the dict built at
mlflow_client.py:464-470 (the unused `tags` copy is dropped). -/
structure PolledModel where
  name : String
  version : String
  run_id : String
  source : String
deriving DecidableEq

/-- The scan `get_models_with_deploy_tag` performs inside its `try`:
enumerate all registered models, then all versions of each, keeping those
whose tag map has `deploy=true`. -/
def mlflowDeployTagScan (reg : MlflowRegistry) : Except PyExn (List PolledModel) := do
  let names ← reg.search_registered_models
  names.foldlM (fun acc model_name => do
    let versions ← reg.search_model_versions model_name
    pure (acc ++ versions.filterMap (fun v =>
      if (v.tags.getD []).lookup "deploy" = some "true" then
        some { name := model_name, version := v.version,
               run_id := v.run_id, source := v.source }
      else none))) []

/-- Embedding of `MLflowClient.get_models_with_deploy_tag`
(mlflow_client.py:431-477): any exception raised inside the scan is caught
and the empty list is returned instead of propagating. -/
def get_models_with_deploy_tag (reg : MlflowRegistry) : List PolledModel :=
  match mlflowDeployTagScan reg with
  | .ok l => l
  | .error _ => []

/-- The label selector the polling loop lists managed services with
(polling_service.py:104). -/
def pollingManagedBySelector : String := "managed-by=mlflow-kserve-webhook-listener"

/-- The label key the polling loop reads the model name from
(polling_service.py:112). -/
def pollingModelNameLabel : String := "mlflow.model"

/-- The label key the polling loop reads the model version from
(polling_service.py:113). -/
def pollingModelVersionLabel : String := "mlflow.version"

/-- The label selector the `/services` endpoint lists managed services with
(main.py:326). -/
def servicesManagedBySelector : String := "managed-by=nebari-mlflow-webhook-listener"

/-- The label selector the detailed health check counts managed services
with (main.py:289). -/
def healthManagedBySelector : String := "managed-by=nebari-mlflow-webhook-listener"

/-- The label key the `/services` endpoint reads the model name from
(main.py:349). -/
def servicesModelNameLabel : String := "mlflow.org/model-name"

/-- The label key the `/services` endpoint reads the model version from
(main.py:350). -/
def servicesModelVersionLabel : String := "mlflow.org/model-version"

/-- The label key the `/services` endpoint reads the run id from
(main.py:351). -/
def servicesRunIdLabel : String := "mlflow.org/run-id"

/-- Python set-insert, modelled as append-if-new (insertion order). -/
def insertNew {α : Type} [DecidableEq α] (l : List α) (x : α) : List α :=
  if x ∈ l then l else l ++ [x]

/-- Python dict assignment: overwrite in place, or append a new binding. -/
def upsert {α β : Type} [DecidableEq α] : List (α × β) → α → β → List (α × β)
  | [], k, v => [(k, v)]
  | (k0, v0) :: rest, k, v =>
    if k0 = k then (k0, v) :: rest else (k0, v0) :: upsert rest k v

/-- The loop at polling_service.py:108-116 building `current_deployments`
(a set of `(model_name, version)` pairs) and `deployed_service_names` (a
dict from pair to service name); a listed service contributes only when
both identity labels are present and non-empty (Python truthiness of
`labels.get`). -/
def buildCurrent (svcs : List K8sObject) :
    List (String × String) × List ((String × String) × String) :=
  svcs.foldl (fun acc svc =>
    match svc.labels.lookup pollingModelNameLabel,
          svc.labels.lookup pollingModelVersionLabel with
    | some mn, some mv =>
      if mn ≠ "" ∧ mv ≠ "" then
        (insertNew acc.1 (mn, mv), upsert acc.2 (mn, mv) svc.name)
      else acc
    | _, _ => acc) ([], [])

/-- The set comprehension at polling_service.py:97-100 building
`desired_deployments`. -/
def desiredOf (models : List PolledModel) : List (String × String) :=
  models.foldl (fun acc m => insertNew acc (m.name, m.version)) []

/-- One mutating reconcile call a poll cycle issues (an
`update_inference_service` or `delete_inference_service` invocation, with
the `(model_name, version)` pair it was issued for). -/
inductive ReconCall where
  | deploy (pair : String × String) (service_name : String) (m : Manifest)
  | undeploy (pair : String × String) (service_name : String)
deriving DecidableEq

/-- Embedding of `PollingService._deploy_model` (polling_service.py:146-220)
as the single update call it issues: look up the model data, resolve the
storage URI, fetch the run (a failure or empty `run_id` falls back to
`"unknown"`), render the manifest and call `update_inference_service`; a
failure before that call is swallowed by the per-item `try` and no call is
made. -/
def deployCallFor (artifacts_uri : String) (getRun : String → Except PyExn RunRec)
    (nspace : String) (models : List PolledModel) (pair : String × String) :
    Option ReconCall :=
  match models.find? (fun m => decide (m.name = pair.1 ∧ m.version = pair.2)) with
  | none => none
  | some md =>
    let storage_uri := resolve_mlflow_artifacts_uri artifacts_uri md.source
    let re : String × String :=
      if md.run_id ≠ "" then
        match getRun md.run_id with
        | .ok run => (md.run_id, run.experiment_id)
        | .error _ => ("unknown", "unknown")
      else ("unknown", "unknown")
    match render_inference_service (some md.name) (some md.version) storage_uri
        re.1 re.2 nspace none with
    | .error _ => none
    | .ok manifest =>
      match generate_inference_service_name (some md.name) (some md.version) with
      | .error _ => none
      | .ok service_name => some (ReconCall.deploy pair service_name manifest)

/-- Embedding of `PollingService._poll_and_reconcile`
(polling_service.py:82-144): compute `desired` from a fresh registry scan
and `current` from a fresh filtered listing, diff them, issue one deploy
per pair in `desired − current` and one undeploy per pair in
`current − desired` by its recorded service name (skipped when falsy), and
replace the advisory `_deployed_models` set with `desired`; an exception —
e.g. a failed listing — aborts the cycle leaving the advisory set
unchanged. -/
def poll_and_reconcile (reg : MlflowRegistry) (getRun : String → Except PyExn RunRec)
    (api : K8sApi) (artifacts_uri nspace : String)
    (deployed_models : List (String × String)) :
    List ReconCall × List (String × String) :=
  let models_to_deploy := get_models_with_deploy_tag reg
  let desired_deployments := desiredOf models_to_deploy
  match (list_inference_services api (some pollingManagedBySelector)).1 with
  | .error _ => ([], deployed_models)
  | .ok deployed_services =>
    let cur := buildCurrent deployed_services
    let to_deploy := desired_deployments.filter (fun p => decide (p ∉ cur.1))
    let to_undeploy := cur.1.filter (fun p => decide (p ∉ desired_deployments))
    let deployCalls := to_deploy.filterMap
      (fun p => deployCallFor artifacts_uri getRun nspace models_to_deploy p)
    let undeployCalls := to_undeploy.filterMap (fun p =>
      match cur.2.lookup p with
      | some sn => if sn ≠ "" then some (ReconCall.undeploy p sn) else none
      | none => none)
    (deployCalls ++ undeployCalls, desired_deployments)

/-- The calls of a trace that deploy the pair `p`. -/
def isDeployFor (p : String × String) : ReconCall → Bool
  | .deploy q _ _ => decide (q = p)
  | .undeploy _ _ => false

/-- The calls of a trace that undeploy the pair `p`. -/
def isUndeployFor (p : String × String) : ReconCall → Bool
  | .undeploy q _ => decide (q = p)
  | .deploy _ _ _ => false

/-- Number of deploy calls for `p` in a trace. -/
def countDeploy (tr : List ReconCall) (p : String × String) : Nat :=
  (tr.filter (isDeployFor p)).length

/-- Number of undeploy calls for `p` in a trace. -/
def countUndeploy (tr : List ReconCall) (p : String × String) : Nat :=
  (tr.filter (isUndeployFor p)).length

/-- A pair has a truthy recorded service name in the
`deployed_service_names` dict. -/
def observedName (names : List ((String × String) × String))
    (p : String × String) : Bool :=
  match names.lookup p with
  | some sn => decide (sn ≠ "")
  | none => false

lemma alnum_implies_valid {c : Char} (h : alnumChar c = true) : validChar c = true := by
  have h2 := of_decide_eq_true h
  exact decide_eq_true (h2.imp (fun hx => hx) (fun hx => Or.inl hx))

lemma alnum_not_dash {c : Char} (h : alnumChar c = true) : isDash c = false := by
  cases hd : isDash c with
  | false => rfl
  | true =>
    rw [isDash_iff.mp hd] at h
    exact absurd h (by decide)

lemma mem_dropWhile_of_neg {α : Type} (p : α → Bool) {l : List α} {c : α}
    (hc : c ∈ l) (hp : p c = false) : c ∈ l.dropWhile p := by
  induction l with
  | nil => cases hc
  | cons a rest ih =>
    rw [List.dropWhile_cons]
    by_cases ha : p a = true
    · rw [if_pos ha]
      rcases List.mem_cons.mp hc with heq | hmem
      · rw [heq] at hp
        rw [hp] at ha
        cases ha
      · exact ih hmem
    · rw [if_neg ha]
      exact hc

lemma mem_pyRStrip_of_neg {α : Type} (p : α → Bool) {l : List α} {c : α}
    (hc : c ∈ l) (hp : p c = false) : c ∈ pyRStrip p l := by
  induction l with
  | nil => cases hc
  | cons a rest ih =>
    unfold pyRStrip
    rcases List.mem_cons.mp hc with heq | hmem
    · subst heq
      cases hr : pyRStrip p rest with
      | nil =>
        rw [if_neg (by rw [hp]; simp)]
        exact List.mem_singleton_self c
      | cons b bs => exact List.mem_cons_self _ _
    · cases hr : pyRStrip p rest with
      | nil => exact absurd (hr ▸ ih hmem) (List.not_mem_nil c)
      | cons b bs => exact List.mem_cons_of_mem _ (hr ▸ ih hmem)

lemma head?_take_pos {α : Type} (l : List α) (n : Nat) (hn : 0 < n) :
    (l.take n).head? = l.head? := by
  cases l with
  | nil => simp
  | cons a rest =>
    cases n with
    | zero => omega
    | succ m => rfl

lemma sanitizeCore_ne_nil {l : List Char} {c : Char} (hc : c ∈ l)
    (ha : alnumChar (Char.toLower c) = true) : sanitizeCore l ≠ [] := by
  have hvalid : validChar (Char.toLower c) = true := alnum_implies_valid ha
  have hdash : isDash (Char.toLower c) = false := alnum_not_dash ha
  have hmem1 : Char.toLower c ∈
      (l.map Char.toLower).map (fun x => if validChar x then x else '-') := by
    refine List.mem_map.mpr ⟨Char.toLower c, List.mem_map.mpr ⟨c, hc, rfl⟩, ?_⟩
    rw [if_pos hvalid]
  have hmem2 : Char.toLower c ∈ stripDashes
      ((l.map Char.toLower).map (fun x => if validChar x then x else '-')) :=
    mem_pyRStrip_of_neg _ (mem_dropWhile_of_neg _ hmem1 hdash) hdash
  have hne : collapseDashes (stripDashes
      ((l.map Char.toLower).map (fun x => if validChar x then x else '-'))) ≠ [] :=
    collapseDashes_ne_nil (List.ne_nil_of_mem hmem2)
  have hheadd : ∀ h, (collapseDashes (stripDashes
      ((l.map Char.toLower).map (fun x => if validChar x then x else '-')))).head? = some h →
      isDash h = false := fun h hh => collapsed_stripped_head hh
  simp only [sanitizeCore]
  split
  · cases hz : collapseDashes (stripDashes
        ((l.map Char.toLower).map (fun x => if validChar x then x else '-'))) with
    | nil => exact absurd hz hne
    | cons a as =>
      have hh : (collapseDashes (stripDashes
          ((l.map Char.toLower).map (fun x => if validChar x then x else '-')))).head? =
          some a := by rw [hz]; rfl
      have hda := hheadd a hh
      have htake : ((a :: as).take 253).head? = some a :=
        head?_take_pos (a :: as) 253 (by omega)
      exact List.ne_nil_of_mem (mem_pyRStrip_of_neg _ (List.mem_of_mem_head? htake) hda)
  · exact hne

lemma generate_inference_service_name_ok (mn mv : Option String) :
    ∃ n, generate_inference_service_name mn mv = Except.ok n := by
  have hv : 'v' ∈ (pyOptStr mn ++ "-v" ++ pyOptStr mv).data := by
    rw [String.data_append, String.data_append]
    exact List.mem_append_left _ (List.mem_append_right _ (by decide))
  have hne := sanitizeCore_ne_nil hv (by decide)
  unfold generate_inference_service_name sanitize_k8s_name
  rw [if_neg (by rw [List.isEmpty_iff]; exact hne)]
  exact ⟨_, rfl⟩

lemma render_inference_service_ok (mn mv : Option String) (s r e ns : String) :
    ∃ m n, render_inference_service mn mv s r e ns none = Except.ok m ∧
      generate_inference_service_name mn mv = Except.ok n ∧
      m.storage_uri = s ∧ m.name = n := by
  obtain ⟨n, hn⟩ := generate_inference_service_name_ok mn mv
  refine ⟨{ kind := "InferenceService", name := n, nspace := ns,
            model_name := pyOptStr mn, model_version := pyOptStr mv,
            storage_uri := s, run_id := r, experiment_id := e },
          n, ?_, hn, rfl, rfl⟩
  simp only [render_inference_service, hn]

lemma mem_insertNew {α : Type} [DecidableEq α] {l : List α} {x y : α} :
    y ∈ insertNew l x ↔ y ∈ l ∨ y = x := by
  unfold insertNew
  by_cases hmem : x ∈ l
  · rw [if_pos hmem]
    constructor
    · exact Or.inl
    · rintro (h | rfl)
      · exact h
      · exact hmem
  · rw [if_neg hmem]
    simp [List.mem_append]

lemma nodup_insertNew {α : Type} [DecidableEq α] {l : List α} (h : l.Nodup) (x : α) :
    (insertNew l x).Nodup := by
  unfold insertNew
  by_cases hmem : x ∈ l
  · rw [if_pos hmem]
    exact h
  · rw [if_neg hmem]
    rw [List.nodup_append]
    refine ⟨h, List.nodup_singleton x, ?_⟩
    intro a ha hax
    rw [List.mem_singleton] at hax
    subst hax
    exact hmem ha

lemma mem_desiredOf_aux (models : List PolledModel) (acc : List (String × String))
    (p : String × String) :
    p ∈ models.foldl (fun a m => insertNew a (m.name, m.version)) acc ↔
      p ∈ acc ∨ ∃ m ∈ models, (m.name, m.version) = p := by
  induction models generalizing acc with
  | nil => simp
  | cons a rest ih =>
    rw [List.foldl_cons, ih, mem_insertNew]
    constructor
    · rintro ((h | rfl) | ⟨m, hm, rfl⟩)
      · exact Or.inl h
      · exact Or.inr ⟨a, List.mem_cons_self _ _, rfl⟩
      · exact Or.inr ⟨m, List.mem_cons_of_mem _ hm, rfl⟩
    · rintro (h | ⟨m, hm, rfl⟩)
      · exact Or.inl (Or.inl h)
      · rcases List.mem_cons.mp hm with heq | hm2
        · exact Or.inl (Or.inr (by rw [heq]))
        · exact Or.inr ⟨m, hm2, rfl⟩

lemma mem_desiredOf {models : List PolledModel} {p : String × String} :
    p ∈ desiredOf models ↔ ∃ m ∈ models, (m.name, m.version) = p := by
  unfold desiredOf
  rw [mem_desiredOf_aux]
  simp

lemma nodup_desiredOf_aux (models : List PolledModel) (acc : List (String × String))
    (h : acc.Nodup) :
    (models.foldl (fun a m => insertNew a (m.name, m.version)) acc).Nodup := by
  induction models generalizing acc with
  | nil => exact h
  | cons a rest ih => exact ih _ (nodup_insertNew h _)

lemma nodup_desiredOf (models : List PolledModel) : (desiredOf models).Nodup :=
  nodup_desiredOf_aux models [] List.nodup_nil

lemma lookup_upsert_self {α β : Type} [DecidableEq α] [BEq α] [LawfulBEq α]
    (d : List (α × β)) (k : α) (v : β) :
    (upsert d k v).lookup k = some v := by
  induction d with
  | nil => simp [upsert, List.lookup]
  | cons kv rest ih =>
    obtain ⟨k0, v0⟩ := kv
    unfold upsert
    by_cases hk : k0 = k
    · subst hk
      simp [List.lookup]
    · rw [if_neg hk]
      have hbeq : (k == k0) = false := by
        rw [beq_eq_false_iff_ne]
        exact fun h => hk h.symm
      simp [List.lookup, hbeq, ih]

lemma lookup_upsert_ne {α β : Type} [DecidableEq α] [BEq α] [LawfulBEq α]
    (d : List (α × β)) (k p : α) (v : β) (hne : p ≠ k) :
    (upsert d k v).lookup p = d.lookup p := by
  induction d with
  | nil =>
    have hbeq : (p == k) = false := beq_eq_false_iff_ne.mpr hne
    simp [upsert, List.lookup, hbeq]
  | cons kv rest ih =>
    obtain ⟨k0, v0⟩ := kv
    unfold upsert
    by_cases hk : k0 = k
    · subst hk
      have hbeq : (p == k0) = false := beq_eq_false_iff_ne.mpr hne
      simp [List.lookup, hbeq]
    · rw [if_neg hk]
      by_cases hp : p = k0
      · subst hp
        simp [List.lookup]
      · have hbeq : (p == k0) = false := beq_eq_false_iff_ne.mpr hp
        simp [List.lookup, hbeq, ih]

lemma buildCurrent_invariant_aux (svcs : List K8sObject)
    (acc : List (String × String) × List ((String × String) × String))
    (hnd : acc.1.Nodup)
    (hlk : ∀ p ∈ acc.1, ∃ sn, acc.2.lookup p = some sn) :
    (svcs.foldl (fun acc svc =>
      match svc.labels.lookup pollingModelNameLabel,
            svc.labels.lookup pollingModelVersionLabel with
      | some mn, some mv =>
        if mn ≠ "" ∧ mv ≠ "" then
          (insertNew acc.1 (mn, mv), upsert acc.2 (mn, mv) svc.name)
        else acc
      | _, _ => acc) acc).1.Nodup ∧
    ∀ p ∈ (svcs.foldl (fun acc svc =>
      match svc.labels.lookup pollingModelNameLabel,
            svc.labels.lookup pollingModelVersionLabel with
      | some mn, some mv =>
        if mn ≠ "" ∧ mv ≠ "" then
          (insertNew acc.1 (mn, mv), upsert acc.2 (mn, mv) svc.name)
        else acc
      | _, _ => acc) acc).1,
      ∃ sn, (svcs.foldl (fun acc svc =>
        match svc.labels.lookup pollingModelNameLabel,
              svc.labels.lookup pollingModelVersionLabel with
        | some mn, some mv =>
          if mn ≠ "" ∧ mv ≠ "" then
            (insertNew acc.1 (mn, mv), upsert acc.2 (mn, mv) svc.name)
          else acc
        | _, _ => acc) acc).2.lookup p = some sn := by
  induction svcs generalizing acc with
  | nil => exact ⟨hnd, hlk⟩
  | cons s rest ih =>
    rw [List.foldl_cons]
    apply ih
    · cases hmn : s.labels.lookup pollingModelNameLabel with
      | none => exact hnd
      | some mn =>
        cases hmv : s.labels.lookup pollingModelVersionLabel with
        | none => exact hnd
        | some mv =>
          dsimp only
          by_cases hne : mn ≠ "" ∧ mv ≠ ""
          · rw [if_pos hne]
            exact nodup_insertNew hnd _
          · rw [if_neg hne]
            exact hnd
    · cases hmn : s.labels.lookup pollingModelNameLabel with
      | none => exact hlk
      | some mn =>
        cases hmv : s.labels.lookup pollingModelVersionLabel with
        | none => exact hlk
        | some mv =>
          dsimp only
          by_cases hne : mn ≠ "" ∧ mv ≠ ""
          · rw [if_pos hne]
            intro p hp
            rcases mem_insertNew.mp hp with hin | rfl
            · by_cases hpk : p = (mn, mv)
              · subst hpk
                exact ⟨s.name, lookup_upsert_self _ _ _⟩
              · obtain ⟨sn, hsn⟩ := hlk p hin
                exact ⟨sn, by rw [lookup_upsert_ne _ _ _ _ hpk]; exact hsn⟩
            · exact ⟨s.name, lookup_upsert_self _ _ _⟩
          · rw [if_neg hne]
            exact hlk

lemma buildCurrent_invariant (svcs : List K8sObject) :
    (buildCurrent svcs).1.Nodup ∧
    ∀ p ∈ (buildCurrent svcs).1, ∃ sn, (buildCurrent svcs).2.lookup p = some sn :=
  buildCurrent_invariant_aux svcs ([], []) List.nodup_nil (by simp)

lemma countDeploy_append (A B : List ReconCall) (p : String × String) :
    countDeploy (A ++ B) p = countDeploy A p + countDeploy B p := by
  simp [countDeploy, List.filter_append]

lemma countUndeploy_append (A B : List ReconCall) (p : String × String) :
    countUndeploy (A ++ B) p = countUndeploy A p + countUndeploy B p := by
  simp [countUndeploy, List.filter_append]

lemma countDeploy_eq_zero_of_undeploys (tr : List ReconCall)
    (h : ∀ c ∈ tr, ∃ q sn, c = ReconCall.undeploy q sn) (p : String × String) :
    countDeploy tr p = 0 := by
  unfold countDeploy
  rw [List.length_eq_zero, List.filter_eq_nil_iff]
  intro c hc
  obtain ⟨q, sn, rfl⟩ := h c hc
  simp [isDeployFor]

lemma countUndeploy_eq_zero_of_deploys (tr : List ReconCall)
    (h : ∀ c ∈ tr, ∃ q sn mf, c = ReconCall.deploy q sn mf) (p : String × String) :
    countUndeploy tr p = 0 := by
  unfold countUndeploy
  rw [List.length_eq_zero, List.filter_eq_nil_iff]
  intro c hc
  obtain ⟨q, sn, mf, rfl⟩ := h c hc
  simp [isUndeployFor]

lemma countDeploy_deployCalls (au : String) (getRun : String → Except PyExn RunRec)
    (ns : String) (models : List PolledModel) (l : List (String × String))
    (hnd : l.Nodup)
    (hsome : ∀ q ∈ l, ∃ sn mf,
      deployCallFor au getRun ns models q = some (ReconCall.deploy q sn mf))
    (p : String × String) :
    countDeploy (l.filterMap (fun q => deployCallFor au getRun ns models q)) p =
      if p ∈ l then 1 else 0 := by
  induction l with
  | nil => simp [countDeploy]
  | cons a rest ih =>
    obtain ⟨sn, mf, ha⟩ := hsome a (List.mem_cons_self _ _)
    have hcount := ih (List.Nodup.of_cons hnd)
      (fun q hq => hsome q (List.mem_cons_of_mem _ hq))
    rw [List.filterMap_cons, ha]
    by_cases hap : a = p
    · subst hap
      have hnotmem : a ∉ rest := (List.nodup_cons.mp hnd).1
      unfold countDeploy at hcount ⊢
      rw [List.filter_cons_of_pos (by simp [isDeployFor])]
      rw [List.length_cons, hcount, if_neg hnotmem, if_pos (List.mem_cons_self _ _)]
    · unfold countDeploy at hcount ⊢
      rw [List.filter_cons_of_neg (by simp [isDeployFor, hap])]
      rw [hcount]
      have : (p ∈ a :: rest) ↔ p ∈ rest := by
        rw [List.mem_cons]
        constructor
        · rintro (rfl | h)
          · exact absurd rfl hap
          · exact h
        · exact Or.inr
      by_cases hmem : p ∈ rest
      · rw [if_pos hmem, if_pos (this.mpr hmem)]
      · rw [if_neg hmem, if_neg (fun hx => hmem (this.mp hx))]

lemma countUndeploy_undeployCalls (names : List ((String × String) × String))
    (l : List (String × String)) (hnd : l.Nodup) (p : String × String) :
    countUndeploy (l.filterMap (fun q =>
      match names.lookup q with
      | some sn => if sn ≠ "" then some (ReconCall.undeploy q sn) else none
      | none => none)) p =
      if p ∈ l ∧ observedName names p = true then 1 else 0 := by
  induction l with
  | nil => simp [countUndeploy]
  | cons a rest ih =>
    have hcount := ih (List.Nodup.of_cons hnd)
    have hnotmem : a ∉ rest := (List.nodup_cons.mp hnd).1
    have hmemiff : p ≠ a → ((p ∈ a :: rest ∧ observedName names p = true) ↔
        (p ∈ rest ∧ observedName names p = true)) := by
      intro hne
      rw [List.mem_cons]
      constructor
      · rintro ⟨rfl | h, ho⟩
        · exact absurd rfl hne
        · exact ⟨h, ho⟩
      · rintro ⟨h, ho⟩
        exact ⟨Or.inr h, ho⟩
    rw [List.filterMap_cons]
    cases hla : names.lookup a with
    | none =>
      dsimp only
      rw [hcount]
      by_cases hap : p = a
      · subst hap
        have hobs : observedName names p = false := by
          unfold observedName
          rw [hla]
        rw [if_neg (fun h => by rw [hobs] at h; exact absurd h.2 (by simp)),
            if_neg (fun h => by rw [hobs] at h; exact absurd h.2 (by simp))]
      · by_cases hmem : p ∈ rest ∧ observedName names p = true
        · rw [if_pos hmem, if_pos ((hmemiff hap).mpr hmem)]
        · rw [if_neg hmem, if_neg (fun hx => hmem ((hmemiff hap).mp hx))]
    | some sn =>
      dsimp only
      by_cases hsn : sn ≠ ""
      · rw [if_pos hsn]
        by_cases hap : p = a
        · subst hap
          have hobs : observedName names p = true := by
            unfold observedName
            rw [hla]
            simp [hsn]
          unfold countUndeploy at hcount ⊢
          rw [List.filter_cons_of_pos (by simp [isUndeployFor])]
          rw [List.length_cons, hcount,
              if_neg (fun h => hnotmem h.1),
              if_pos ⟨List.mem_cons_self _ _, hobs⟩]
        · unfold countUndeploy at hcount ⊢
          rw [List.filter_cons_of_neg (by simp [isUndeployFor]; exact fun h => hap h.symm)]
          rw [hcount]
          by_cases hmem : p ∈ rest ∧ observedName names p = true
          · rw [if_pos hmem, if_pos ((hmemiff hap).mpr hmem)]
          · rw [if_neg hmem, if_neg (fun hx => hmem ((hmemiff hap).mp hx))]
      · rw [if_neg hsn]
        dsimp only
        rw [hcount]
        by_cases hap : p = a
        · subst hap
          have hobs : observedName names p = false := by
            unfold observedName
            rw [hla]
            simpa using hsn
          rw [if_neg (fun h => by rw [hobs] at h; exact absurd h.2 (by simp)),
              if_neg (fun h => by rw [hobs] at h; exact absurd h.2 (by simp))]
        · by_cases hmem : p ∈ rest ∧ observedName names p = true
          · rw [if_pos hmem, if_pos ((hmemiff hap).mpr hmem)]
          · rw [if_neg hmem, if_neg (fun hx => hmem ((hmemiff hap).mp hx))]

lemma deployCallFor_of_find (au : String) (getRun : String → Except PyExn RunRec)
    (ns : String) (models : List PolledModel) (q : String × String) (md : PolledModel)
    (hmd : models.find? (fun m => decide (m.name = q.1 ∧ m.version = q.2)) = some md) :
    ∃ sn mf, deployCallFor au getRun ns models q = some (ReconCall.deploy q sn mf) := by
  obtain ⟨n, hgen⟩ := generate_inference_service_name_ok (some md.name) (some md.version)
  have hrender : ∀ s r e, render_inference_service (some md.name) (some md.version) s r e ns none =
      Except.ok { kind := "InferenceService", name := n, nspace := ns,
                  model_name := pyOptStr (some md.name),
                  model_version := pyOptStr (some md.version),
                  storage_uri := s, run_id := r, experiment_id := e } := by
    intro s r e
    simp only [render_inference_service, hgen]
  unfold deployCallFor
  rw [hmd]
  dsimp only
  rw [hrender, hgen]
  exact ⟨n, _, rfl⟩

lemma deployCallFor_some_of_mem_desired (au : String)
    (getRun : String → Except PyExn RunRec) (ns : String)
    (models : List PolledModel) (q : String × String) (hq : q ∈ desiredOf models) :
    ∃ sn mf, deployCallFor au getRun ns models q = some (ReconCall.deploy q sn mf) := by
  obtain ⟨m, hm, hpair⟩ := mem_desiredOf.mp hq
  have hsome : (models.find? (fun m => decide (m.name = q.1 ∧ m.version = q.2))).isSome = true := by
    rw [List.find?_isSome]
    refine ⟨m, hm, ?_⟩
    rw [← hpair]
    simp
  cases hmd : models.find? (fun m => decide (m.name = q.1 ∧ m.version = q.2)) with
  | none =>
    rw [hmd] at hsome
    simp at hsome
  | some md => exact deployCallFor_of_find au getRun ns models q md hmd

lemma poll_trace_spec (reg : MlflowRegistry) (getRun : String → Except PyExn RunRec)
    (api : K8sApi) (au ns : String) (prev : List (String × String))
    (svcs : List K8sObject)
    (hlist : (list_inference_services api (some pollingManagedBySelector)).1 =
      Except.ok svcs) (p : String × String) :
    countDeploy (poll_and_reconcile reg getRun api au ns prev).1 p =
      (if p ∈ desiredOf (get_models_with_deploy_tag reg) ∧ p ∉ (buildCurrent svcs).1
       then 1 else 0) ∧
    countUndeploy (poll_and_reconcile reg getRun api au ns prev).1 p =
      (if p ∈ (buildCurrent svcs).1 ∧ p ∉ desiredOf (get_models_with_deploy_tag reg) ∧
          observedName (buildCurrent svcs).2 p = true
       then 1 else 0) := by
  unfold poll_and_reconcile
  rw [hlist]
  dsimp only
  have hundeps : ∀ c ∈ ((buildCurrent svcs).1.filter
      (fun p => decide (p ∉ desiredOf (get_models_with_deploy_tag reg)))).filterMap
      (fun p => match (buildCurrent svcs).2.lookup p with
        | some sn => if sn ≠ "" then some (ReconCall.undeploy p sn) else none
        | none => none),
      ∃ q sn, c = ReconCall.undeploy q sn := by
    intro c hc
    obtain ⟨q, hq, hfq⟩ := List.mem_filterMap.mp hc
    cases hql : (buildCurrent svcs).2.lookup q with
    | none => rw [hql] at hfq; cases hfq
    | some sn =>
      rw [hql] at hfq
      dsimp only at hfq
      by_cases hsn : sn ≠ ""
      · rw [if_pos hsn] at hfq
        exact ⟨q, sn, (Option.some.inj hfq).symm⟩
      · rw [if_neg hsn] at hfq
        cases hfq
  have hdeps : ∀ c ∈ ((desiredOf (get_models_with_deploy_tag reg)).filter
      (fun p => decide (p ∉ (buildCurrent svcs).1))).filterMap
      (fun q => deployCallFor au getRun ns (get_models_with_deploy_tag reg) q),
      ∃ q sn mf, c = ReconCall.deploy q sn mf := by
    intro c hc
    obtain ⟨q, hq, hfq⟩ := List.mem_filterMap.mp hc
    have hq2 : q ∈ desiredOf (get_models_with_deploy_tag reg) := (List.mem_filter.mp hq).1
    obtain ⟨sn, mf, heq⟩ := deployCallFor_some_of_mem_desired au getRun ns _ q hq2
    rw [heq] at hfq
    exact ⟨q, sn, mf, (Option.some.inj hfq).symm⟩
  have hnodupd : ((desiredOf (get_models_with_deploy_tag reg)).filter
      (fun p => decide (p ∉ (buildCurrent svcs).1))).Nodup :=
    (nodup_desiredOf _).filter _
  have hnodupu : ((buildCurrent svcs).1.filter
      (fun p => decide (p ∉ desiredOf (get_models_with_deploy_tag reg)))).Nodup :=
    (buildCurrent_invariant svcs).1.filter _
  constructor
  · rw [countDeploy_append]
    rw [countDeploy_eq_zero_of_undeploys _ hundeps p, Nat.add_zero]
    rw [countDeploy_deployCalls au getRun ns _ _ hnodupd
      (fun q hq => deployCallFor_some_of_mem_desired au getRun ns _ q (List.mem_filter.mp hq).1) p]
    by_cases hmem : p ∈ desiredOf (get_models_with_deploy_tag reg) ∧ p ∉ (buildCurrent svcs).1
    · rw [if_pos (List.mem_filter.mpr ⟨hmem.1, by simpa using hmem.2⟩), if_pos hmem]
    · rw [if_neg (fun hx => hmem ⟨(List.mem_filter.mp hx).1,
        by simpa using (List.mem_filter.mp hx).2⟩), if_neg hmem]
  · rw [countUndeploy_append]
    rw [countUndeploy_eq_zero_of_deploys _ hdeps p, Nat.zero_add]
    rw [countUndeploy_undeployCalls (buildCurrent svcs).2 _ hnodupu p]
    by_cases hmem : p ∈ (buildCurrent svcs).1 ∧
        p ∉ desiredOf (get_models_with_deploy_tag reg) ∧
        observedName (buildCurrent svcs).2 p = true
    · rw [if_pos ⟨List.mem_filter.mpr ⟨hmem.1, by simpa using hmem.2.1⟩, hmem.2.2⟩,
          if_pos hmem]
    · rw [if_neg (fun hx => hmem ⟨(List.mem_filter.mp hx.1).1,
        by simpa using (List.mem_filter.mp hx.1).2, hx.2⟩), if_neg hmem]

/-- C4: in every poll-and-reconcile cycle whose listing succeeds, with
`desired` the pairs tagged `deploy=true` freshly listed from the registry
and `current` the pairs read off the labels of the freshly listed managed
cluster objects, the cycle issues exactly one deploy (create-or-update)
call for each pair in `desired − current` and exactly one delete call for
each pair in `current − desired` whose service name was observed (recorded
under a truthy name in `deployed_service_names`; every pair of `current`
has a recorded name), and no other mutating collaborator calls; the trace
is independent of the advisory `_deployed_models` state carried over from
previous cycles. -/
theorem poll_and_reconcile_diff (reg : MlflowRegistry)
    (getRun : String → Except PyExn RunRec) (api : K8sApi) (au ns : String)
    (prev prev2 : List (String × String)) (svcs : List K8sObject)
    (hlist : (list_inference_services api (some pollingManagedBySelector)).1 =
      Except.ok svcs) :
    (∀ p : String × String,
      countDeploy (poll_and_reconcile reg getRun api au ns prev).1 p =
        (if p ∈ desiredOf (get_models_with_deploy_tag reg) ∧
            p ∉ (buildCurrent svcs).1 then 1 else 0) ∧
      countUndeploy (poll_and_reconcile reg getRun api au ns prev).1 p =
        (if p ∈ (buildCurrent svcs).1 ∧
            p ∉ desiredOf (get_models_with_deploy_tag reg) ∧
            observedName (buildCurrent svcs).2 p = true then 1 else 0)) ∧
    (∀ p ∈ (buildCurrent svcs).1, ∃ sn, (buildCurrent svcs).2.lookup p = some sn) ∧
    (poll_and_reconcile reg getRun api au ns prev).1 =
      (poll_and_reconcile reg getRun api au ns prev2).1 := by
  refine ⟨fun p => poll_trace_spec reg getRun api au ns prev svcs hlist p,
    (buildCurrent_invariant svcs).2, ?_⟩
  unfold poll_and_reconcile
  rw [hlist]

/-- A registry holding exactly one model `A` with one version `1` tagged
`deploy=true`. -/
def pollingRegistryA : MlflowRegistry where
  search_registered_models := .ok ["A"]
  search_model_versions := fun _ =>
    .ok [{ version := "1", run_id := "r1", source := "s3://bucket/model-a",
           tags := some [("deploy", "true")] }]

/-- A run lookup answering experiment `1`. -/
def getRunExp1 : String → Except PyExn RunRec := fun _ => .ok { experiment_id := "1" }

/-- A managed InferenceService for model `B` version `2`, labelled with the
keys the polling loop reads. -/
def svcB2 : K8sObject where
  name := "b-v2"
  labels := [("managed-by", "mlflow-kserve-webhook-listener"),
             ("mlflow.model", "B"), ("mlflow.version", "2")]

/-- A cluster whose filtered listing returns exactly `svcB2`. -/
def pollClusterApiB2 : K8sApi where
  getObj := fun _ => .error (.api 404 "Not Found")
  createObj := fun _ _ => .ok { uid := some "uid-1" }
  patchObj := fun _ _ => .ok { uid := some "uid-1" }
  deleteObj := fun _ => .ok ()
  listObjs := fun _ => .ok [svcB2]

/-- Witness for C4: with desired `{(A,1)}` and current `{(B,2)}`, the cycle
issues exactly one deploy call for `(A,1)` and one undeploy call for
`(B,2)`, and none for the opposite pairs. -/
theorem poll_and_reconcile_diff_witness :
    countDeploy (poll_and_reconcile pollingRegistryA getRunExp1 pollClusterApiB2
      "s3://base" "ns" []).1 ("A", "1") = 1 ∧
    countUndeploy (poll_and_reconcile pollingRegistryA getRunExp1 pollClusterApiB2
      "s3://base" "ns" []).1 ("B", "2") = 1 ∧
    countDeploy (poll_and_reconcile pollingRegistryA getRunExp1 pollClusterApiB2
      "s3://base" "ns" []).1 ("B", "2") = 0 ∧
    countUndeploy (poll_and_reconcile pollingRegistryA getRunExp1 pollClusterApiB2
      "s3://base" "ns" []).1 ("A", "1") = 0 :=
  have h := poll_and_reconcile_diff pollingRegistryA getRunExp1 pollClusterApiB2
    "s3://base" "ns" [] [] [svcB2] rfl
  ⟨((h.1 ("A", "1")).1).trans (by decide),
   ((h.1 ("B", "2")).2).trans (by decide),
   ((h.1 ("B", "2")).1).trans (by decide),
   ((h.1 ("A", "1")).2).trans (by decide)⟩

/-- C5: if listing registered models (or model versions) from the registry
raises during a poll cycle, `get_models_with_deploy_tag` returns the empty
list instead of propagating, so the cycle proceeds with an empty desired
set: it issues no deploy call and exactly one undeploy (delete) call for
every currently listed managed service (with an observed truthy name),
rather than skipping reconciliation. -/
theorem get_models_error_empty_desired (reg : MlflowRegistry)
    (getRun : String → Except PyExn RunRec) (api : K8sApi) (au ns : String)
    (prev : List (String × String)) (svcs : List K8sObject)
    (hscan : ∃ e, mlflowDeployTagScan reg = Except.error e)
    (hlist : (list_inference_services api (some pollingManagedBySelector)).1 =
      Except.ok svcs) :
    get_models_with_deploy_tag reg = [] ∧
    (∀ p : String × String,
      countDeploy (poll_and_reconcile reg getRun api au ns prev).1 p = 0) ∧
    (∀ p : String × String,
      countUndeploy (poll_and_reconcile reg getRun api au ns prev).1 p =
        (if p ∈ (buildCurrent svcs).1 ∧ observedName (buildCurrent svcs).2 p = true
         then 1 else 0)) := by
  obtain ⟨e, he⟩ := hscan
  have hempty : get_models_with_deploy_tag reg = [] := by
    unfold get_models_with_deploy_tag
    rw [he]
  refine ⟨hempty, ?_, ?_⟩
  · intro p
    rw [(poll_trace_spec reg getRun api au ns prev svcs hlist p).1, if_neg]
    rintro ⟨hmem, -⟩
    rw [hempty] at hmem
    simp [desiredOf] at hmem
  · intro p
    rw [(poll_trace_spec reg getRun api au ns prev svcs hlist p).2]
    by_cases hmem : p ∈ (buildCurrent svcs).1 ∧ observedName (buildCurrent svcs).2 p = true
    · rw [if_pos ⟨hmem.1, by rw [hempty]; simp [desiredOf], hmem.2⟩, if_pos hmem]
    · rw [if_neg (fun hx => hmem ⟨hx.1, hx.2.2⟩), if_neg hmem]

/-- An unreachable registry as seen by the poller. -/
def pollingRegistryDown : MlflowRegistry where
  search_registered_models := .error (.other "registry unreachable")
  search_model_versions := fun _ => .error (.other "registry unreachable")

/-- Witness for C5: with the registry listing raising and `(B,2)` currently
deployed, the cycle issues one delete for `(B,2)` and no deploy. -/
theorem get_models_error_empty_desired_witness :
    get_models_with_deploy_tag pollingRegistryDown = [] ∧
    countUndeploy (poll_and_reconcile pollingRegistryDown getRunExp1 pollClusterApiB2
      "s3://base" "ns" [("B", "2")]).1 ("B", "2") = 1 ∧
    countDeploy (poll_and_reconcile pollingRegistryDown getRunExp1 pollClusterApiB2
      "s3://base" "ns" [("B", "2")]).1 ("B", "2") = 0 :=
  have h := get_models_error_empty_desired pollingRegistryDown getRunExp1 pollClusterApiB2
    "s3://base" "ns" [("B", "2")] [svcB2] ⟨PyExn.other "registry unreachable", rfl⟩ rfl
  ⟨h.1, (h.2.2 ("B", "2")).trans (by decide), h.2.1 ("B", "2")⟩

/-! ## The `/services` endpoint projection (main.py:310-363) -/

/-- The per-service projection returned by `/services` (status/url fields,
which come from the cluster object's status, are not modelled). -/
structure ServiceView where
  name : String
  model_name : String
  model_version : String
  run_id : String
deriving DecidableEq

/-- Embedding of the `/services` endpoint's listing and label projection
(main.py:310-363): list managed objects with its managed-by selector and
read the identity labels under the `mlflow.org/...` keys, defaulting to
`"unknown"`. -/
def list_services (api : K8sApi) : Except PyExn (List ServiceView) × List K8sCall :=
  match list_inference_services api (some servicesManagedBySelector) with
  | (.error e, tr) => (.error e, tr)
  | (.ok raw, tr) =>
    (.ok (raw.map (fun svc =>
      { name := svc.name,
        model_name := (svc.labels.lookup servicesModelNameLabel).getD "unknown",
        model_version := (svc.labels.lookup servicesModelVersionLabel).getD "unknown",
        run_id := (svc.labels.lookup servicesRunIdLabel).getD "unknown" })), tr)

/-- An InferenceService labelled exactly as the deploy path's rendered
manifest labels it (label keys and managed-by value asserted by the
repository's template tests, tests/test_templates.py:108-113,220-224). -/
def templateLabeledSvc : K8sObject where
  name := "iris-classifier-v2"
  labels := [("managed-by", "nebari-mlflow-webhook-listener"),
             ("mlflow.org/model-name", "iris-classifier"),
             ("mlflow.org/model-version", "2"),
             ("mlflow.org/run-id", "abc123"),
             ("mlflow.org/experiment-id", "exp789")]

/-- C10 (failing evaluation): the polling loop and the `/services` listing
endpoint do not use the same managed-by label selector, and they read the
model-name/model-version identifying labels under different label keys (the
detailed health check does agree with `/services`). Consequently the
polling loop extracts no `(model_name, version)` pair at all from a service
labelled the way the deploy path labels it. -/
theorem managed_by_label_mismatch :
    healthManagedBySelector = servicesManagedBySelector ∧
    pollingManagedBySelector ≠ servicesManagedBySelector ∧
    pollingModelNameLabel ≠ servicesModelNameLabel ∧
    pollingModelVersionLabel ≠ servicesModelVersionLabel ∧
    buildCurrent [templateLabeledSvc] = ([], []) ∧
    (list_services pollClusterApiB2).2 = [K8sCall.list (some servicesManagedBySelector)] :=
  ⟨rfl, by decide, by decide, by decide, rfl, rfl⟩
